import Mathlib

/-!
Verification of the auto-QSR pipeline specification against the source.

The development shallowly embeds the two agent scripts
(`src/platform_agent.py` and `src/aggregate_agent.py`):

* Python strings are `List Char`; `str.strip` / `str.split` / `str.replace` /
  slicing are modelled character-by-character with the semantics of CPython.
* JSON values are the inductive `Json` (numbers as `Int`; float printing and
  parsing is delegated by the scripts to Python's `json` module and is outside
  this model).  `json.dumps(x, indent=2)` and `json.loads` are modelled by
  `json_dumps_indent2` / `json_loads`; `json.dumps(x)` by `json_dumps`.
* The LLM network call is an external collaborator: each agent's `try` block
  around `get_llm_client_and_model` / `query_llm` / `json.loads` either
  produces a parsed `Json` response or raises, so a run is parameterised by an
  `Except (List Char) Json` outcome.  The DuckDB table of reports is a
  `List QsrRow`.
-/

/-- Uncaught Python exceptions that the modelled code paths can raise.
`template.split("TASK")[1]` raises `IndexError` when the marker is absent
(platform_agent.py line 110, aggregate_agent.py line 75). -/
inductive PyError where
  | indexError
deriving DecidableEq, Repr

/-! ### Python string primitives, on `List Char` -/

/-- Whitespace stripped by Python's `str.strip()` (ASCII range). -/
def isPyWS (c : Char) : Bool :=
  c == ' ' || c == '\t' || c == '\n' || c == '\r' || c == '\x0b' || c == '\x0c'

/-- Model of `str.lstrip()`. -/
def pyLStrip (s : List Char) : List Char := s.dropWhile isPyWS

/-- Model of `str.rstrip()`. -/
def pyRStrip (s : List Char) : List Char := (s.reverse.dropWhile isPyWS).reverse

/-- Model of `str.strip()`: remove leading and trailing whitespace. -/
def pyStrip (s : List Char) : List Char := pyLStrip (pyRStrip s)

/-- Leftmost occurrence of `pat` in `s`: `some (before, after)` splits `s` as
`before ++ pat ++ after` at the first match, `none` if `pat` never occurs. -/
def findSub (pat : List Char) : List Char → Option (List Char × List Char)
  | [] => none
  | c :: cs =>
    if pat.isPrefixOf (c :: cs) then some ([], (c :: cs).drop pat.length)
    else (findSub pat cs).map (fun p => (c :: p.1, p.2))

/-- Iterated splitting at `pat`, fuelled so that the recursion is structural;
each successful `findSub` consumes at least `pat.length ≥ 1` characters, so
`fuel = s.length` never runs out for a nonempty pattern. -/
def pySplitOnFuel (pat : List Char) : Nat → List Char → List (List Char)
  | 0, s => [s]
  | fuel + 1, s =>
    match findSub pat s with
    | none => [s]
    | some (a, r) => a :: pySplitOnFuel pat fuel r

/-- Model of Python `s.split(pat)` for a nonempty `pat`. -/
def pySplitOn (pat s : List Char) : List (List Char) := pySplitOnFuel pat s.length s

/-- Fuelled worker for `pyReplace`; same fuel argument as `pySplitOnFuel`. -/
def pyReplaceFuel (pat repl : List Char) : Nat → List Char → List Char
  | 0, s => s
  | fuel + 1, s =>
    match findSub pat s with
    | none => s
    | some (a, r) => a ++ repl ++ pyReplaceFuel pat repl fuel r

/-- Model of Python `s.replace(pat, repl)` for a nonempty `pat`. -/
def pyReplace (pat repl s : List Char) : List Char := pyReplaceFuel pat repl s.length s

/-- Model of Python list indexing `xs[i]` for `i ≥ 0`: out of range raises. -/
def pyGetIndex (xs : List (List Char)) (i : Nat) : Except PyError (List Char) :=
  match xs.get? i with
  | some x => Except.ok x
  | none => Except.error PyError.indexError

/-- Model of Python `str.capitalize()` (ASCII): first character upper-cased,
the rest lower-cased. -/
def pyCapitalize (s : List Char) : List Char :=
  match s with
  | [] => []
  | c :: cs => c.toUpper :: cs.map Char.toLower

/-- Model of the Python slice `s[i:-j]` (for literal nonnegative `i`, `j`). -/
def pySliceMid (i j : Nat) (s : List Char) : List Char :=
  (s.drop i).take (s.length - j - i)

/-! ### JSON values -/

/-- JSON values as produced/consumed by the scripts via Python's `json`
module.  Numbers are integers (the QSR fields exercised here are tiers and
serialization of whatever `json.loads` produced; float repr round-tripping is
a property of CPython's `json` module, not of this repository).  Objects keep
member order, as `dict` does. -/
inductive Json where
  | null
  | bool (b : Bool)
  | num (n : Int)
  | str (s : List Char)
  | arr (elems : List Json)
  | obj (members : List (List Char × Json))
deriving Inhabited

/-- First binding of key `k` in an association list of members (Python `dict`
keys are unique, so first-match lookup agrees with `dict` access). -/
def Json.lookupKey (k : List Char) : List (List Char × Json) → Option Json
  | [] => none
  | (k', v) :: ms => if k' = k then some v else Json.lookupKey k ms

/-- Model of `data[k]` / `k in data` support: the value at key `k` of an
object, `none` on non-objects or missing keys. -/
def Json.getKey (j : Json) (k : List Char) : Option Json :=
  match j with
  | Json.obj ms => Json.lookupKey k ms
  | _ => none

/-- Model of Python `data.get(k, d)` on a dict. -/
def Json.getKeyD (j : Json) (k : List Char) (d : Json) : Json :=
  (j.getKey k).getD d

/-- Model of `k in data` for a dict. -/
def Json.hasKey (j : Json) (k : List Char) : Bool := (j.getKey k).isSome

/-- Whether the value is a JSON object (`isinstance(data, dict)`). -/
def Json.isObj : Json → Bool
  | Json.obj _ => true
  | _ => false

/-- Python truthiness of a JSON value (`if qsr_data.get("error")`). -/
def jsonTruthy : Json → Bool
  | Json.null => false
  | Json.bool b => b
  | Json.num n => decide (n ≠ 0)
  | Json.str s => !s.isEmpty
  | Json.arr l => !l.isEmpty
  | Json.obj m => !m.isEmpty

/-- The integer carried by a JSON number, if the value is one. -/
def Json.asInt : Json → Option Int
  | Json.num n => some n
  | _ => none

/-- The `recommended_action.tier` field of a QSR, when it is an integer. -/
def qsrTier (j : Json) : Option Int :=
  (j.getKey "recommended_action".data).bind
    (fun ra => (ra.getKey "tier".data).bind Json.asInt)

/-- Whether a QSR's tier is an integer in the closed range `[-1, 3]`. -/
def tierInRange (j : Json) : Bool :=
  match qsrTier j with
  | some t => decide (-1 ≤ t ∧ t ≤ 3)
  | none => false

/-! ### Serialization of JSON (model of Python `json.dumps`)

`ensure_ascii` escaping of non-ASCII characters is elided: it affects only the
byte representation, not which value the text denotes, and the scripts never
inspect the bytes. Control characters, quotes and backslashes are escaped as
CPython does. -/

/-- Lower-case hexadecimal digit for `n < 16`. -/
def hexDigitChar (n : Nat) : Char :=
  if n < 10 then Char.ofNat (48 + n) else Char.ofNat (87 + n)

/-- Escape one character as `json.dumps` renders it inside a string literal. -/
def escapeChar (c : Char) : List Char :=
  if c = '"' then ['\\', '"']
  else if c = '\\' then ['\\', '\\']
  else if c = '\n' then ['\\', 'n']
  else if c = '\t' then ['\\', 't']
  else if c = '\r' then ['\\', 'r']
  else if c = Char.ofNat 8 then ['\\', 'b']
  else if c = Char.ofNat 12 then ['\\', 'f']
  else if c.toNat < 32 then
    ['\\', 'u', '0', '0', hexDigitChar (c.toNat / 16), hexDigitChar (c.toNat % 16)]
  else [c]

/-- Escape a whole string body (without the surrounding quotes). -/
def escapeString : List Char → List Char
  | [] => []
  | c :: cs => escapeChar c ++ escapeString cs

/-- Decimal digit character for `n ≤ 9`. -/
def digitChar (n : Nat) : Char := Char.ofNat (48 + n)

/-- Decimal digits of a natural number, most significant first. -/
def natToDigits (n : Nat) : List Char :=
  if n < 10 then [digitChar n]
  else natToDigits (n / 10) ++ [digitChar (n % 10)]
termination_by n
decreasing_by exact Nat.div_lt_self (by omega) (by omega)

/-- Decimal rendering of an integer, as Python `repr` / `json.dumps` print it. -/
def intToChars : Int → List Char
  | Int.ofNat n => natToDigits n
  | Int.negSucc m => '-' :: natToDigits (m + 1)

/-- A run of `n` spaces (indentation). -/
def spaces : Nat → List Char
  | 0 => []
  | n + 1 => ' ' :: spaces n

mutual

/-- Model of `json.dumps(x)` with default separators `", "` and `": "`
(used for the DuckDB row fields, aggregate_agent.py lines 143-145). -/
def dumpsCV : Json → List Char
  | Json.null => "null".data
  | Json.bool true => "true".data
  | Json.bool false => "false".data
  | Json.num n => intToChars n
  | Json.str s => '"' :: (escapeString s ++ ['"'])
  | Json.arr [] => ['[', ']']
  | Json.arr (e :: es) => '[' :: (dumpsCV e ++ (dumpsCItems es ++ [']']))
  | Json.obj [] => ['\x7b', '\x7d']
  | Json.obj (m :: ms) => '\x7b' :: (dumpsCMember m ++ (dumpsCMembers ms ++ ['\x7d']))

/-- One `"key": value` member, compact form. -/
def dumpsCMember : List Char × Json → List Char
  | (k, v) => '"' :: (escapeString k ++ ('"' :: ':' :: ' ' :: dumpsCV v))

/-- Remaining array items, compact form, each preceded by `", "`. -/
def dumpsCItems : List Json → List Char
  | [] => []
  | e :: es => ',' :: ' ' :: (dumpsCV e ++ dumpsCItems es)

/-- Remaining object members, compact form, each preceded by `", "`. -/
def dumpsCMembers : List (List Char × Json) → List Char
  | [] => []
  | m :: ms => ',' :: ' ' :: (dumpsCMember m ++ dumpsCMembers ms)

end

/-- Model of Python `json.dumps(x)` (default separators). -/
def json_dumps (j : Json) : List Char := dumpsCV j

mutual

/-- Model of `json.dumps(x, indent=2)` at indentation level `ind` — the format
`json.dump(summary_data, f, indent=2)` writes (platform_agent.py line 147,
aggregate_agent.py line 126): containers put each item on its own line,
indented two deeper, with `","` between items and `": "` after keys. -/
def dumpsV (ind : Nat) : Json → List Char
  | Json.null => "null".data
  | Json.bool true => "true".data
  | Json.bool false => "false".data
  | Json.num n => intToChars n
  | Json.str s => '"' :: (escapeString s ++ ['"'])
  | Json.arr [] => ['[', ']']
  | Json.arr (e :: es) =>
    '[' :: '\n' :: (spaces (ind + 2) ++ (dumpsV (ind + 2) e ++
      (dumpsItems ind es ++ ('\n' :: (spaces ind ++ [']'])))))
  | Json.obj [] => ['\x7b', '\x7d']
  | Json.obj (m :: ms) =>
    '\x7b' :: '\n' :: (spaces (ind + 2) ++ (dumpsMember (ind + 2) m ++
      (dumpsMembers ind ms ++ ('\n' :: (spaces ind ++ ['\x7d'])))))

/-- One `"key": value` member at indentation `ind`. -/
def dumpsMember (ind : Nat) : List Char × Json → List Char
  | (k, v) => '"' :: (escapeString k ++ ('"' :: ':' :: ' ' :: dumpsV ind v))

/-- Remaining array items at the parent's level `ind`, each preceded by
`",\n"` and the item indentation. -/
def dumpsItems (ind : Nat) : List Json → List Char
  | [] => []
  | e :: es => ',' :: '\n' :: (spaces (ind + 2) ++ (dumpsV (ind + 2) e ++ dumpsItems ind es))

/-- Remaining object members at the parent's level `ind`. -/
def dumpsMembers (ind : Nat) : List (List Char × Json) → List Char
  | [] => []
  | m :: ms => ',' :: '\n' :: (spaces (ind + 2) ++ (dumpsMember (ind + 2) m ++ dumpsMembers ind ms))

end

/-- Model of the file content written by `json.dump(x, f, indent=2)`. -/
def json_dumps_indent2 (j : Json) : List Char := dumpsV 0 j

/-! ### Parsing of JSON (model of Python `json.loads` on well-formed input) -/

/-- JSON inter-token whitespace accepted by `json.loads`. -/
def isJsonWs (c : Char) : Bool := c == ' ' || c == '\t' || c == '\n' || c == '\r'

/-- Skip inter-token whitespace. -/
def skipWs (s : List Char) : List Char := s.dropWhile isJsonWs

/-- Value of a hexadecimal digit character. -/
def hexVal (c : Char) : Option Nat :=
  if '0' ≤ c ∧ c ≤ '9' then some (c.toNat - 48)
  else if 'a' ≤ c ∧ c ≤ 'f' then some (c.toNat - 87)
  else if 'A' ≤ c ∧ c ≤ 'F' then some (c.toNat - 55)
  else none

/-- Decode the escape sequence following a backslash inside a JSON string,
returning the denoted character and the remaining input. -/
def unescapeSeq : List Char → Option (Char × List Char)
  | [] => none
  | e :: r =>
    if e = '"' then some ('"', r)
    else if e = '\\' then some ('\\', r)
    else if e = '/' then some ('/', r)
    else if e = 'n' then some ('\n', r)
    else if e = 't' then some ('\t', r)
    else if e = 'r' then some ('\r', r)
    else if e = 'b' then some (Char.ofNat 8, r)
    else if e = 'f' then some (Char.ofNat 12, r)
    else if e = 'u' then
      match r with
      | h1 :: h2 :: h3 :: h4 :: r' =>
        match hexVal h1, hexVal h2, hexVal h3, hexVal h4 with
        | some a, some b, some c, some d =>
          let n := ((a * 16 + b) * 16 + c) * 16 + d
          if n.isValidChar then some (Char.ofNat n, r') else none
        | _, _, _, _ => none
      | _ => none
    else none

/-- Parse the body of a JSON string after the opening quote, up to and past
the closing quote.  Fuelled; each step consumes at least one character. -/
def parseStringRest : Nat → List Char → Option (List Char × List Char)
  | 0, _ => none
  | _ + 1, [] => none
  | fuel + 1, c :: r =>
    if c = '"' then some ([], r)
    else if c = '\\' then
      match unescapeSeq r with
      | some (d, r') => (parseStringRest fuel r').map (fun p => (d :: p.1, p.2))
      | none => none
    else (parseStringRest fuel r).map (fun p => (c :: p.1, p.2))

/-- Numeric value of a digit run, most significant first. -/
def digitsToNat (ds : List Char) : Nat :=
  ds.foldl (fun a c => a * 10 + (c.toNat - 48)) 0

/-- Parse a maximal nonempty run of decimal digits. -/
def parseNatNum (s : List Char) : Option (Nat × List Char) :=
  let ds := s.takeWhile Char.isDigit
  if ds.isEmpty then none
  else some (digitsToNat ds, s.dropWhile Char.isDigit)

/-- Parse an optionally negated integer literal. -/
def parseNumber (s : List Char) : Option (Int × List Char) :=
  if s.head? = some '-' then (parseNatNum s.tail).map (fun p => (-(p.1 : Int), p.2))
  else (parseNatNum s).map (fun p => ((p.1 : Int), p.2))

mutual

/-- Parse one JSON value (after optional leading whitespace), returning it and
the unconsumed remainder.  The fuel bounds the number of parser steps; any
fuel at least the input length suffices for serialized values. -/
def parseVal : Nat → List Char → Option (Json × List Char)
  | 0, _ => none
  | fuel + 1, s =>
    let t := skipWs s
    if "null".data.isPrefixOf t then some (Json.null, t.drop 4)
    else if "true".data.isPrefixOf t then some (Json.bool true, t.drop 4)
    else if "false".data.isPrefixOf t then some (Json.bool false, t.drop 5)
    else if t.head? = some '"' then
      (parseStringRest (t.length + 1) t.tail).map (fun p => (Json.str p.1, p.2))
    else if t.head? = some '[' then
      if (skipWs t.tail).head? = some ']' then some (Json.arr [], (skipWs t.tail).tail)
      else (parseItems fuel t.tail).map (fun p => (Json.arr p.1, p.2))
    else if t.head? = some '\x7b' then
      if (skipWs t.tail).head? = some '\x7d' then some (Json.obj [], (skipWs t.tail).tail)
      else (parseMembers fuel t.tail).map (fun p => (Json.obj p.1, p.2))
    else (parseNumber t).map (fun p => (Json.num p.1, p.2))

/-- Parse one or more comma-separated array items and the closing bracket. -/
def parseItems : Nat → List Char → Option (List Json × List Char)
  | 0, _ => none
  | fuel + 1, s =>
    match parseVal fuel s with
    | none => none
    | some (j, r) =>
      let u := skipWs r
      if u.head? = some ',' then (parseItems fuel u.tail).map (fun p => (j :: p.1, p.2))
      else if u.head? = some ']' then some ([j], u.tail)
      else none

/-- Parse one or more `"key": value` members and the closing brace. -/
def parseMembers : Nat → List Char → Option (List (List Char × Json) × List Char)
  | 0, _ => none
  | fuel + 1, s =>
    let t := skipWs s
    if t.head? = some '"' then
      match parseStringRest (t.length + 1) t.tail with
      | none => none
      | some (k, r1) =>
        let u := skipWs r1
        if u.head? = some ':' then
          match parseVal fuel u.tail with
          | none => none
          | some (v, r2) =>
            let w := skipWs r2
            if w.head? = some ',' then
              (parseMembers fuel w.tail).map (fun p => ((k, v) :: p.1, p.2))
            else if w.head? = some '\x7d' then some ([(k, v)], w.tail)
            else none
        else none
    else none

end

/-- Model of Python `json.loads(s)` on well-formed input: parse a complete
value and require only whitespace to remain. -/
def json_loads (s : List Char) : Option Json :=
  match parseVal (s.length + 1) s with
  | some (j, r) => if (skipWs r).isEmpty then some j else none
  | none => none

/-! ### LLM provider selection (both agents' `get_llm_client_and_model`) -/

/-- The two provider protocols. -/
inductive Provider where
  | openai
  | google
deriving DecidableEq, Repr

/-- Default model name (`DEFAULT_LLM_MODEL`, both agents). -/
def DEFAULT_LLM_MODEL : List Char := "gpt-4o-mini".data

/-- Model of `get_llm_client_and_model` (platform_agent.py lines 25-54,
aggregate_agent.py lines 22-37; the branch structures are identical).
`api_key` / `llm_model_env` are the `LLM_API_KEY` / `LLM_MODEL` environment
variables (`none` when unset); `openai_avail` / `genai_avail` record whether
the corresponding import succeeded.  The result is the provider together with
the model name passed to it, or the raised configuration error's message. -/
def get_llm_client_and_model (api_key : Option (List Char))
    (llm_model_env : Option (List Char)) (openai_avail genai_avail : Bool) :
    Except (List Char) (Provider × List Char) :=
  let model_preference := llm_model_env.getD DEFAULT_LLM_MODEL
  if (api_key.getD []).isEmpty then Except.error "LLM_API_KEY not set.".data
  else if "gpt".data.isPrefixOf model_preference && openai_avail then
    Except.ok (Provider.openai, model_preference)
  else if "gemini".data.isPrefixOf model_preference && genai_avail then
    Except.ok (Provider.google, model_preference)
  else if openai_avail then
    Except.ok (Provider.openai, model_preference)
  else if genai_avail then
    Except.ok (Provider.google,
      if "gemini".data.isPrefixOf model_preference then model_preference
      else "gemini-pro".data)
  else Except.error "LLM client setup failed.".data

/-! ### Markdown code-fence cleanup in `query_llm`'s Gemini branch -/

/-- The backtick character. -/
def btick : Char := Char.ofNat 96

/-- The literal `"```json"`. -/
def fenceJsonTag : List Char := [btick, btick, btick, 'j', 's', 'o', 'n']

/-- The literal `"```"`. -/
def fenceTag : List Char := [btick, btick, btick]

/-- Model of the fence cleanup applied to the Gemini response text
(platform_agent.py lines 89-93, aggregate_agent.py lines 56-57):
`json_text.strip()[7:-3].strip()` when the stripped text starts with
`"```json"`, `json_text.strip()[3:-3].strip()` when it starts with `"```"`,
otherwise the text unchanged. -/
def stripMarkdownFence (json_text : List Char) : List Char :=
  if fenceJsonTag.isPrefixOf (pyStrip json_text) then
    pyStrip (pySliceMid 7 3 (pyStrip json_text))
  else if fenceTag.isPrefixOf (pyStrip json_text) then
    pyStrip (pySliceMid 3 3 (pyStrip json_text))
  else json_text

/-! ### Prompt-template splitting at the literal marker `"TASK"` -/

/-- The literal marker `"TASK"`. -/
def TASK : List Char := ['T', 'A', 'S', 'K']

/-- Whether a template contains the marker. -/
def hasTask (template : List Char) : Bool := (findSub TASK template).isSome

/-- Model of aggregate_agent.py lines 74-75:
`system = template.split("TASK")[0].strip()`;
`task = "TASK" + template.split("TASK")[1].strip()`.
Index 1 raises `IndexError` when the marker is absent. -/
def aggregateSplitPrompt (template : List Char) :
    Except PyError (List Char × List Char) := do
  let p0 ← pyGetIndex (pySplitOn TASK template) 0
  let p1 ← pyGetIndex (pySplitOn TASK template) 1
  return (pyStrip p0, TASK ++ pyStrip p1)

/-- Model of platform_agent.py lines 109-110: as `aggregateSplitPrompt`, but
part 0 first has `"{surface}"` replaced by `surface.capitalize()`. -/
def platformSplitPrompt (surface template : List Char) :
    Except PyError (List Char × List Char) := do
  let p0 ← pyGetIndex (pySplitOn TASK template) 0
  let p1 ← pyGetIndex (pySplitOn TASK template) 1
  return (pyStrip (pyReplace "{surface}".data (pyCapitalize surface) p0),
          TASK ++ pyStrip p1)

/-! ### The Platform Summarizer run (platform_agent.py `main`) -/

/-- The summary written when the windowed table is empty
(platform_agent.py line 129). -/
def emptyActivitySummary (surface : List Char) : Json :=
  Json.obj
    [("incidents".data, Json.arr []),
     ("summary".data, Json.str ("No activity recorded for ".data ++ surface ++
       " in the last 24 hours.".data))]

/-- The summary written when the LLM query or JSON parse raises with message
`e` (platform_agent.py line 143). -/
def llmErrorSummary (surface e : List Char) : Json :=
  Json.obj
    [("incidents".data, Json.arr []),
     ("summary".data, Json.str ("Error processing data for ".data ++ surface ++
       ": ".data ++ e)),
     ("error".data, Json.bool true)]

/-- Observables of one Summarizer run. -/
structure PlatformRun where
  /-- an uncaught exception aborting the process, if any -/
  uncaught : Option PyError
  /-- the JSON value written to the `--out` file, `none` if aborted first -/
  written : Option Json
  /-- whether the LLM branch (configuration read and query) was entered -/
  llmCalled : Bool
  /-- whether the DuckDB database was opened and read -/
  dbRead : Bool

/-- Model of platform_agent.py `main` from the prompt-template read onward.
Order as in the source: template split (lines 109-110, may raise), database
open and windowed-table read (lines 112-125), then either the empty-table
summary (lines 127-129) or the LLM branch (lines 130-143) whose outcome
`llm` is the parsed response or the caught exception's message; the result is
always written (lines 145-147). -/
def platform_agent_main (surface template : List Char) (tableEmpty : Bool)
    (llm : Except (List Char) Json) : PlatformRun :=
  match platformSplitPrompt surface template with
  | Except.error e => { uncaught := some e, written := none, llmCalled := false, dbRead := false }
  | Except.ok _ =>
    if tableEmpty then
      { uncaught := none, written := some (emptyActivitySummary surface),
        llmCalled := false, dbRead := true }
    else
      match llm with
      | Except.ok j =>
        { uncaught := none, written := some j, llmCalled := true, dbRead := true }
      | Except.error e =>
        { uncaught := none, written := some (llmErrorSummary surface e),
          llmCalled := true, dbRead := true }

/-! ### The Aggregator run (aggregate_agent.py `main`) -/

/-- The fixed platform list (`PLATFORM_SURFACES`, aggregate_agent.py line 20). -/
def PLATFORM_SURFACES : List (List Char) :=
  ["gemini".data, "imagen".data, "search".data]

/-- Outcome of attempting to load one `<surface>.pss.json` file
(aggregate_agent.py lines 80-101). -/
inductive PssLoad where
  /-- the file does not exist -/
  | fileMissing
  /-- `json.load` raised `JSONDecodeError` -/
  | jsonDecodeError
  /-- some other exception while loading, with its message -/
  | loadFailed (msg : List Char)
  /-- `json.load` returned the value `j` -/
  | loaded (j : Json)

/-- The validation at aggregate_agent.py line 86: loaded, a dict, and carrying
both `"incidents"` and `"summary"` keys.  Exactly these loads set
`found_any_pss`. -/
def pssValid : PssLoad → Bool
  | PssLoad.loaded j =>
    j.isObj && j.hasKey "incidents".data && j.hasKey "summary".data
  | _ => false

/-- The fixed error QSR produced when no valid PSS was loaded
(aggregate_agent.py lines 105-109). -/
def noPssQsr : Json :=
  Json.obj
    [("narrative".data, Json.str "Failed to generate QSR: No valid platform summaries were found or loaded.".data),
     ("risk_vector".data, Json.obj []),
     ("macro_patterns".data, Json.arr []),
     ("recommended_action".data, Json.obj
       [("tier".data, Json.num (-1)),
        ("justification".data, Json.str "No platform data.".data)]),
     ("error".data, Json.bool true)]

/-- The error QSR substituted when the LLM query or JSON parse raises with
message `e` (aggregate_agent.py line 122). -/
def llmErrorQsr (e : List Char) : Json :=
  Json.obj
    [("narrative".data, Json.str ("Error generating QSR: ".data ++ e)),
     ("risk_vector".data, Json.obj []),
     ("macro_patterns".data, Json.arr []),
     ("recommended_action".data, Json.obj
       [("tier".data, Json.num (-1)),
        ("justification".data, Json.str "Error in QSR generation.".data)]),
     ("error".data, Json.bool true)]

/-- One row of the DuckDB `qsr_reports` table (aggregate_agent.py lines
132-135): `report_ts` defaults to `now()` at insertion; `narrative` is passed
through as a value, the remaining columns receive `json.dumps` text. -/
structure QsrRow where
  /-- insertion timestamp (`report_ts TIMESTAMP DEFAULT now()`) -/
  report_ts : Nat
  /-- the `narrative` column -/
  narrative : Json
  /-- the `risk_vector` column, JSON-serialized -/
  risk_vector : List Char
  /-- the `macro_patterns` column, JSON-serialized -/
  macro_patterns : List Char
  /-- the `recommended_action` column, JSON-serialized -/
  recommended_action : List Char
  /-- the `raw_json` column: the whole QSR, JSON-serialized -/
  raw_json : List Char

/-- The row built from a QSR dict at aggregate_agent.py lines 137-145, with
insertion timestamp `ts`. -/
def mkQsrRow (qsr : Json) (ts : Nat) : QsrRow :=
  let errTruthy := jsonTruthy (qsr.getKeyD "error".data Json.null)
  { report_ts := ts
    narrative := qsr.getKeyD "narrative".data
      (Json.str (if errTruthy then "N/A due to error".data else []))
    risk_vector := json_dumps (qsr.getKeyD "risk_vector".data (Json.obj []))
    macro_patterns := json_dumps (qsr.getKeyD "macro_patterns".data (Json.arr []))
    recommended_action := json_dumps (qsr.getKeyD "recommended_action".data
      (if errTruthy then
        Json.obj [("tier".data, Json.num (-1)),
                  ("justification".data, Json.str "N/A due to error".data)]
       else Json.obj []))
    raw_json := json_dumps qsr }

/-- Model of the persistence block (aggregate_agent.py lines 129-149).  When
`qsr` is a dict, one row is appended.  When it is any other JSON value,
`qsr_data.get("narrative", ...)` at line 137 raises `AttributeError`, the
`except` at line 148 logs it, and no row is inserted. -/
def persistQsr (db : List QsrRow) (qsr : Json) (ts : Nat) : List QsrRow :=
  match qsr with
  | Json.obj _ => db ++ [mkQsrRow qsr ts]
  | _ => db

/-- Observables of one Aggregator run. -/
structure AggregateRun where
  /-- an uncaught exception aborting the process, if any -/
  uncaught : Option PyError
  /-- the QSR written to the output file, `none` if aborted first -/
  writtenQsr : Option Json
  /-- whether the LLM branch (configuration read and query) was entered -/
  llmCalled : Bool
  /-- the `qsr_reports` table after the run -/
  dbRows : List QsrRow

/-- Model of aggregate_agent.py `main` from the prompt-template read onward.
Order as in the source: template split (lines 74-75, may raise), PSS loading
and validation (lines 77-101) summarised by `loads`, then either the fixed
error QSR (lines 103-109) or the LLM branch (lines 110-122) with outcome
`llm`; the QSR is written (lines 124-127) and then persisted (lines 129-149)
into the table whose prior rows are `db0`, at timestamp `ts`. -/
def aggregate_agent_main (template : List Char) (loads : List Char → PssLoad)
    (llm : Except (List Char) Json) (db0 : List QsrRow) (ts : Nat) : AggregateRun :=
  match aggregateSplitPrompt template with
  | Except.error e =>
    { uncaught := some e, writtenQsr := none, llmCalled := false, dbRows := db0 }
  | Except.ok _ =>
    let found_any_pss := PLATFORM_SURFACES.any (fun s => pssValid (loads s))
    let qsr_data :=
      if !found_any_pss then noPssQsr
      else
        match llm with
        | Except.ok j => j
        | Except.error e => llmErrorQsr e
    { uncaught := none, writtenQsr := some qsr_data, llmCalled := found_any_pss,
      dbRows := persistQsr db0 qsr_data ts }

/-- Rest inputs that cannot extend a just-parsed number. -/
def delimOk (rest : List Char) : Prop :=
  ∀ c, rest.head? = some c → c.isDigit = false

/-- Modelled from the spec's words, for comparison with the code: the
"task-instruction suffix equal to the text from \"TASK\" onward (stripped)" is
the marker together with everything after its first occurrence, stripped. -/
def specTextFromTaskOnward (template : List Char) : List Char :=
  match findSub TASK template with
  | some (_, r) => pyStrip (TASK ++ r)
  | none => []

/-! ### Basic facts about `findSub` and `pySplitOn` -/

/-- A successful `findSub` decomposes its input around the pattern. -/
theorem findSub_decomp {pat s a r : List Char} (h : findSub pat s = some (a, r)) :
    s = a ++ pat ++ r := by
  induction s generalizing a r with
  | nil => simp [findSub] at h
  | cons c cs ih =>
    rw [findSub] at h
    split at h
    · next hpre =>
      obtain ⟨t, ht⟩ := List.isPrefixOf_iff_prefix.mp hpre
      injection h with h'
      obtain ⟨ha, hr⟩ := Prod.mk.injEq .. |>.mp h'
      rw [← ha, ← hr, ← ht]
      simp [List.drop_left]
    · next hpre =>
      rw [Option.map_eq_some'] at h
      obtain ⟨p, hp, hpe⟩ := h
      obtain ⟨a', r'⟩ := p
      obtain ⟨ha, hr⟩ := Prod.mk.injEq .. |>.mp hpe
      rw [← hr, ← ha, ih hp]
      simp

/-- Length bookkeeping for `findSub_decomp`. -/
theorem findSub_length {pat s a r : List Char} (h : findSub pat s = some (a, r)) :
    s.length = a.length + pat.length + r.length := by
  rw [findSub_decomp h]
  simp [List.length_append]
  omega

/-- A fuelled split never returns the empty list. -/
theorem pySplitOnFuel_ne_nil (pat : List Char) (f : Nat) (s : List Char) :
    pySplitOnFuel pat f s ≠ [] := by
  cases f with
  | zero => simp [pySplitOnFuel]
  | succ f =>
    rw [pySplitOnFuel]
    cases h : findSub pat s with
    | none => simp
    | some p => simp

/-- Any fuel at least the input length computes the same split. -/
theorem pySplitOnFuel_congr {pat : List Char} (hp : pat ≠ []) :
    ∀ n s f g, s.length ≤ n → s.length ≤ f → s.length ≤ g →
      pySplitOnFuel pat f s = pySplitOnFuel pat g s := by
  intro n
  induction n with
  | zero =>
    intro s f g hn _ _
    have hs : s = [] := List.eq_nil_of_length_eq_zero (Nat.le_zero.mp hn)
    subst hs
    have hnone : findSub pat [] = none := by simp [findSub]
    cases f <;> cases g <;> simp [pySplitOnFuel, hnone]
  | succ n ih =>
    intro s f g hn hf hg
    cases f with
    | zero =>
      have hs : s = [] := List.eq_nil_of_length_eq_zero (Nat.le_zero.mp hf)
      subst hs
      have hnone : findSub pat [] = none := by simp [findSub]
      cases g <;> simp [pySplitOnFuel, hnone]
    | succ f =>
      cases g with
      | zero =>
        have hs : s = [] := List.eq_nil_of_length_eq_zero (Nat.le_zero.mp hg)
        subst hs
        have hnone : findSub pat [] = none := by simp [findSub]
        simp [pySplitOnFuel, hnone]
      | succ g =>
        rw [pySplitOnFuel, pySplitOnFuel]
        cases h : findSub pat s with
        | none => rfl
        | some p =>
          obtain ⟨a, r⟩ := p
          have hlen := findSub_length h
          have hpat : 1 ≤ pat.length := by
            cases pat with
            | nil => exact absurd rfl hp
            | cons _ _ => simp
          have hr : r.length ≤ n := by omega
          show a :: pySplitOnFuel pat f r = a :: pySplitOnFuel pat g r
          rw [ih r f g hr (by omega) (by omega)]

/-- Unfolding `pySplitOn` at a found occurrence. -/
theorem pySplitOn_cons {pat s a r : List Char} (hp : pat ≠ [])
    (h : findSub pat s = some (a, r)) :
    pySplitOn pat s = a :: pySplitOn pat r := by
  have hlen := findSub_length h
  have hpat : 1 ≤ pat.length := by
    cases pat with
    | nil => exact absurd rfl hp
    | cons _ _ => simp
  obtain ⟨k, hk⟩ : ∃ k, s.length = k + 1 := ⟨s.length - 1, by omega⟩
  unfold pySplitOn
  rw [hk, pySplitOnFuel, h]
  show a :: pySplitOnFuel pat k r = a :: pySplitOnFuel pat r.length r
  rw [pySplitOnFuel_congr hp r.length r k r.length le_rfl (by omega) le_rfl]

/-- Unfolding `pySplitOn` when the pattern does not occur. -/
theorem pySplitOn_single {pat s : List Char} (h : findSub pat s = none) :
    pySplitOn pat s = [s] := by
  unfold pySplitOn
  cases hl : s.length with
  | zero => simp [pySplitOnFuel]
  | succ k => rw [pySplitOnFuel, h]

/-- The first occurrence of `"TASK"` after a marker-free preamble `a` is
exactly at the junction. -/
theorem findSub_task_boundary {a : List Char} (r : List Char)
    (h : findSub TASK a = none) : findSub TASK (a ++ TASK ++ r) = some (a, r) := by
  induction a with
  | nil =>
    simp only [List.nil_append, TASK, List.cons_append]
    simp [findSub, List.isPrefixOf]
  | cons c a' ih =>
    rw [findSub] at h
    split at h
    · exact absurd h (by simp)
    · next hpre =>
      have h' : findSub TASK a' = none := by
        rw [Option.map_eq_none'] at h
        exact h
      have hpre2 : TASK.isPrefixOf (c :: a') = false := by
        revert hpre
        cases TASK.isPrefixOf (c :: a') <;> simp
      have hpre' : TASK.isPrefixOf (c :: (a' ++ TASK ++ r)) = false := by
        match a' with
        | [] => simp [TASK, List.isPrefixOf]
        | [x] => simp [TASK, List.isPrefixOf]
        | [x, y] => simp [TASK, List.isPrefixOf]
        | x :: y :: z :: a'' =>
          simp only [TASK, List.isPrefixOf, List.cons_append] at hpre2 ⊢
          simpa using hpre2
      simp only [List.cons_append]
      rw [findSub, if_neg (by simp only [hpre']; simp), ih h']
      simp

/-! ### Characterizing the template split via `hasTask` -/

/-- Without the marker, the Aggregator's split raises `IndexError`. -/
theorem aggregateSplitPrompt_of_not_hasTask {t : List Char} (h : hasTask t = false) :
    aggregateSplitPrompt t = Except.error PyError.indexError := by
  have hnone : findSub TASK t = none := by
    unfold hasTask at h
    exact Option.not_isSome_iff_eq_none.mp (by simp [h])
  simp [aggregateSplitPrompt, pySplitOn_single hnone, pyGetIndex, Bind.bind, Except.bind]

/-- Without the marker, the Summarizer's split raises `IndexError`. -/
theorem platformSplitPrompt_of_not_hasTask (surface : List Char) {t : List Char}
    (h : hasTask t = false) :
    platformSplitPrompt surface t = Except.error PyError.indexError := by
  have hnone : findSub TASK t = none := by
    unfold hasTask at h
    exact Option.not_isSome_iff_eq_none.mp (by simp [h])
  simp [platformSplitPrompt, pySplitOn_single hnone, pyGetIndex, Bind.bind, Except.bind]

/-- With the marker present, the Aggregator's split succeeds. -/
theorem aggregateSplitPrompt_of_hasTask {t : List Char} (h : hasTask t = true) :
    ∃ p, aggregateSplitPrompt t = Except.ok p := by
  unfold hasTask at h
  obtain ⟨⟨a, r⟩, hfind⟩ := Option.isSome_iff_exists.mp h
  have hsplit := pySplitOn_cons (by decide) hfind
  obtain ⟨h1, t1, ht1⟩ := List.exists_cons_of_ne_nil (pySplitOnFuel_ne_nil TASK r.length r)
  have ht1' : pySplitOn TASK r = h1 :: t1 := ht1
  refine ⟨(pyStrip a, TASK ++ pyStrip h1), ?_⟩
  simp [aggregateSplitPrompt, hsplit, ht1', pyGetIndex, List.get?, Bind.bind, Except.bind,
    Pure.pure, Except.pure]

/-- With the marker present, the Summarizer's split succeeds. -/
theorem platformSplitPrompt_of_hasTask (surface : List Char) {t : List Char}
    (h : hasTask t = true) :
    ∃ p, platformSplitPrompt surface t = Except.ok p := by
  unfold hasTask at h
  obtain ⟨⟨a, r⟩, hfind⟩ := Option.isSome_iff_exists.mp h
  have hsplit := pySplitOn_cons (by decide) hfind
  obtain ⟨h1, t1, ht1⟩ := List.exists_cons_of_ne_nil (pySplitOnFuel_ne_nil TASK r.length r)
  have ht1' : pySplitOn TASK r = h1 :: t1 := ht1
  refine ⟨(pyStrip (pyReplace "{surface}".data (pyCapitalize surface) a),
           TASK ++ pyStrip h1), ?_⟩
  simp [platformSplitPrompt, hsplit, ht1', pyGetIndex, List.get?, Bind.bind, Except.bind,
    Pure.pure, Except.pure]

/-- C5: with the windowed table empty, the Summarizer writes exactly the
fixed empty summary, does not enter the LLM branch (so never reads the LLM
configuration), and raises nothing — independently of the LLM outcome. -/
theorem c5_empty_table_no_llm (surface template : List Char)
    (llm : Except (List Char) Json) (h : hasTask template = true) :
    platform_agent_main surface template true llm =
      { uncaught := none, written := some (emptyActivitySummary surface),
        llmCalled := false, dbRead := true } := by
  obtain ⟨p, hp⟩ := platformSplitPrompt_of_hasTask surface h
  simp [platform_agent_main, hp]

/-- Witness for `c5_empty_table_no_llm` at a concrete template and surface. -/
theorem c5_empty_table_no_llm_witness :
    hasTask "context TASK instructions".data = true ∧
    platform_agent_main "search".data "context TASK instructions".data true
        (Except.error "boom".data) =
      { uncaught := none,
        written := some (emptyActivitySummary "search".data),
        llmCalled := false, dbRead := true } :=
  ⟨by decide, c5_empty_table_no_llm _ _ _ (by decide)⟩

/-- C4: with no valid PSS among the three expected files, the Aggregator
skips the LLM branch entirely and writes the fixed error QSR: tier `-1`,
`error: true`, and the failure narrative. -/
theorem c4_no_valid_pss_skips_llm (template : List Char)
    (loads : List Char → PssLoad) (llm : Except (List Char) Json)
    (db0 : List QsrRow) (ts : Nat) (htask : hasTask template = true)
    (hnone : ∀ s ∈ PLATFORM_SURFACES, pssValid (loads s) = false) :
    (aggregate_agent_main template loads llm db0 ts).llmCalled = false ∧
    (aggregate_agent_main template loads llm db0 ts).writtenQsr = some noPssQsr ∧
    qsrTier noPssQsr = some (-1) ∧
    noPssQsr.getKey "error".data = some (Json.bool true) ∧
    noPssQsr.getKey "narrative".data = some (Json.str
      "Failed to generate QSR: No valid platform summaries were found or loaded.".data) := by
  obtain ⟨p, hp⟩ := aggregateSplitPrompt_of_hasTask htask
  have hfound : PLATFORM_SURFACES.any (fun s => pssValid (loads s)) = false :=
    List.any_eq_false.mpr (fun x hx => by simp [hnone x hx])
  refine ⟨?_, ?_, by decide, rfl, rfl⟩ <;>
    simp [aggregate_agent_main, hp, hfound]

/-- Witness for `c4_no_valid_pss_skips_llm`: all three PSS files missing. -/
theorem c4_no_valid_pss_skips_llm_witness :
    hasTask "context TASK instructions".data = true ∧
    (∀ s ∈ PLATFORM_SURFACES, pssValid ((fun _ => PssLoad.fileMissing) s) = false) ∧
    (aggregate_agent_main "context TASK instructions".data (fun _ => PssLoad.fileMissing)
        (Except.ok Json.null) [] 0).llmCalled = false ∧
    (aggregate_agent_main "context TASK instructions".data (fun _ => PssLoad.fileMissing)
        (Except.ok Json.null) [] 0).writtenQsr = some noPssQsr :=
  ⟨by decide, by decide,
   (c4_no_valid_pss_skips_llm _ _ _ _ _ (by decide) (by decide)).1,
   (c4_no_valid_pss_skips_llm _ _ _ _ _ (by decide) (by decide)).2.1⟩

/-- C10: a template without the literal `"TASK"` makes both agents raise an
uncaught `IndexError` at the split, before any LLM call, database access or
output write; with the marker present the split cannot raise, so the run
never aborts. -/
theorem c10_split_index_error (surface template : List Char) (tableEmpty : Bool)
    (llm llmA : Except (List Char) Json) (loads : List Char → PssLoad)
    (db0 : List QsrRow) (ts : Nat) :
    (hasTask template = false →
      platform_agent_main surface template tableEmpty llm =
        { uncaught := some PyError.indexError, written := none,
          llmCalled := false, dbRead := false } ∧
      aggregate_agent_main template loads llmA db0 ts =
        { uncaught := some PyError.indexError, writtenQsr := none,
          llmCalled := false, dbRows := db0 }) ∧
    (hasTask template = true →
      (platform_agent_main surface template tableEmpty llm).uncaught = none ∧
      (aggregate_agent_main template loads llmA db0 ts).uncaught = none) := by
  constructor
  · intro h
    have h1 := platformSplitPrompt_of_not_hasTask surface h
    have h2 := aggregateSplitPrompt_of_not_hasTask h
    exact ⟨by simp [platform_agent_main, h1], by simp [aggregate_agent_main, h2]⟩
  · intro h
    obtain ⟨p1, hp1⟩ := platformSplitPrompt_of_hasTask surface h
    obtain ⟨p2, hp2⟩ := aggregateSplitPrompt_of_hasTask h
    constructor
    · cases tableEmpty <;> rcases llm with e | j <;> simp [platform_agent_main, hp1]
    · simp [aggregate_agent_main, hp2]

/-- Witness for `c10_split_index_error`, exercising both directions. -/
theorem c10_split_index_error_witness :
    hasTask "no marker here".data = false ∧
    platform_agent_main "gemini".data "no marker here".data false
        (Except.ok Json.null) =
      { uncaught := some PyError.indexError, written := none,
        llmCalled := false, dbRead := false } ∧
    hasTask "sys TASK go".data = true ∧
    (platform_agent_main "gemini".data "sys TASK go".data false
        (Except.ok Json.null)).uncaught = none :=
  ⟨by decide,
   ((c10_split_index_error "gemini".data "no marker here".data false
       (Except.ok Json.null) (Except.ok Json.null) (fun _ => PssLoad.fileMissing)
       [] 0).1 (by decide)).1,
   by decide,
   ((c10_split_index_error "gemini".data "sys TASK go".data false
       (Except.ok Json.null) (Except.ok Json.null) (fun _ => PssLoad.fileMissing)
       [] 0).2 (by decide)).1⟩

/-- Appending through `persistQsr` never disturbs the existing rows. -/
theorem persistQsr_take (db : List QsrRow) (qsr : Json) (ts : Nat) :
    (persistQsr db qsr ts).take db.length = db := by
  cases qsr <;> simp [persistQsr, List.take_left, List.take_length]

/-- C1 counterexample: a run in which the LLM response parses to a JSON
array.  The Summarizer writes it unvalidated, so the written value is not an
object and carries neither an `"incidents"` nor a `"summary"` key. -/
theorem c1_summary_keys_counterexample :
    ((platform_agent_main "gemini".data "sys TASK go".data false
        (Except.ok (Json.arr []))).written.map
      (fun j => j.isObj || j.hasKey "incidents".data || j.hasKey "summary".data))
      = some false := by decide

/-- C1 amended: under a template containing the marker, the Summarizer always
writes some JSON value; on the empty-table and failure branches it is an
object with `"incidents"` and `"summary"` keys (plus `error: true` on
failure), while on the success branch it is exactly the parsed LLM response,
whatever its shape. -/
theorem c1_output_always_written_amended (surface template : List Char)
    (tableEmpty : Bool) (llm : Except (List Char) Json)
    (htask : hasTask template = true) :
    (∃ j, (platform_agent_main surface template tableEmpty llm).written = some j) ∧
    (tableEmpty = true →
      (platform_agent_main surface template tableEmpty llm).written =
        some (emptyActivitySummary surface) ∧
      (emptyActivitySummary surface).hasKey "incidents".data = true ∧
      (emptyActivitySummary surface).hasKey "summary".data = true ∧
      (emptyActivitySummary surface).hasKey "error".data = false) ∧
    (∀ e, tableEmpty = false → llm = Except.error e →
      (platform_agent_main surface template tableEmpty llm).written =
        some (llmErrorSummary surface e) ∧
      (llmErrorSummary surface e).hasKey "incidents".data = true ∧
      (llmErrorSummary surface e).hasKey "summary".data = true ∧
      (llmErrorSummary surface e).getKey "error".data = some (Json.bool true)) ∧
    (∀ j, tableEmpty = false → llm = Except.ok j →
      (platform_agent_main surface template tableEmpty llm).written = some j) := by
  obtain ⟨p, hp⟩ := platformSplitPrompt_of_hasTask surface htask
  refine ⟨?_, fun hte => ?_, fun e hte hllm => ?_, fun j hte hllm => ?_⟩
  · rcases tableEmpty <;> rcases llm with e | j
    · exact ⟨llmErrorSummary surface e, by simp [platform_agent_main, hp]⟩
    · exact ⟨j, by simp [platform_agent_main, hp]⟩
    · exact ⟨emptyActivitySummary surface, by simp [platform_agent_main, hp]⟩
    · exact ⟨emptyActivitySummary surface, by simp [platform_agent_main, hp]⟩
  · subst hte
    exact ⟨by simp [platform_agent_main, hp], rfl, rfl, rfl⟩
  · subst hte hllm
    exact ⟨by simp [platform_agent_main, hp], rfl, rfl, rfl⟩
  · subst hte hllm
    simp [platform_agent_main, hp]

/-- Witness for `c1_output_always_written_amended` on the failure branch. -/
theorem c1_output_always_written_amended_witness :
    hasTask "sys TASK go".data = true ∧
    (platform_agent_main "imagen".data "sys TASK go".data false
        (Except.error "boom".data)).written =
      some (llmErrorSummary "imagen".data "boom".data) :=
  ⟨by decide,
   ((c1_output_always_written_amended "imagen".data "sys TASK go".data false
       (Except.error "boom".data) (by decide)).2.2.1 "boom".data rfl rfl).1⟩

/-- C2 counterexample: with one valid PSS and an LLM response whose
`recommended_action.tier` is `99`, the Aggregator writes that QSR unchanged:
the tier is an integer outside `[-1, 3]`. -/
theorem c2_tier_range_counterexample :
    ((aggregate_agent_main "sys TASK go".data
        (fun _ => PssLoad.loaded (Json.obj
          [("incidents".data, Json.arr []), ("summary".data, Json.str [])]))
        (Except.ok (Json.obj [("recommended_action".data,
          Json.obj [("tier".data, Json.num 99)])])) [] 0).writtenQsr.map tierInRange)
      = some false ∧
    ((aggregate_agent_main "sys TASK go".data
        (fun _ => PssLoad.loaded (Json.obj
          [("incidents".data, Json.arr []), ("summary".data, Json.str [])]))
        (Except.ok (Json.obj [("recommended_action".data,
          Json.obj [("tier".data, Json.num 99)])])) [] 0).writtenQsr.bind qsrTier)
      = some 99 := by decide

/-- C2 amended: the tier is `-1` (hence an integer in `[-1, 3]`) on the
no-valid-PSS branch and on the LLM-failure branch; on the success branch the
written QSR is exactly the parsed response, whose tier the code does not
constrain. -/
theorem c2_tier_amended (template : List Char) (loads : List Char → PssLoad)
    (llm : Except (List Char) Json) (db0 : List QsrRow) (ts : Nat)
    (htask : hasTask template = true) :
    (PLATFORM_SURFACES.any (fun s => pssValid (loads s)) = false →
      (aggregate_agent_main template loads llm db0 ts).writtenQsr = some noPssQsr ∧
      qsrTier noPssQsr = some (-1) ∧ tierInRange noPssQsr = true) ∧
    (∀ e, PLATFORM_SURFACES.any (fun s => pssValid (loads s)) = true →
      llm = Except.error e →
      (aggregate_agent_main template loads llm db0 ts).writtenQsr =
        some (llmErrorQsr e) ∧
      qsrTier (llmErrorQsr e) = some (-1) ∧ tierInRange (llmErrorQsr e) = true) ∧
    (∀ j, PLATFORM_SURFACES.any (fun s => pssValid (loads s)) = true →
      llm = Except.ok j →
      (aggregate_agent_main template loads llm db0 ts).writtenQsr = some j) := by
  obtain ⟨p, hp⟩ := aggregateSplitPrompt_of_hasTask htask
  refine ⟨fun hfound => ?_, fun e hfound hllm => ?_, fun j hfound hllm => ?_⟩
  · exact ⟨by simp [aggregate_agent_main, hp, hfound], by decide, by decide⟩
  · subst hllm
    exact ⟨by simp [aggregate_agent_main, hp, hfound], rfl, rfl⟩
  · subst hllm
    simp [aggregate_agent_main, hp, hfound]

/-- Witness for `c2_tier_amended` on the LLM-failure branch. -/
theorem c2_tier_amended_witness :
    hasTask "sys TASK go".data = true ∧
    (aggregate_agent_main "sys TASK go".data
        (fun _ => PssLoad.loaded (Json.obj
          [("incidents".data, Json.arr []), ("summary".data, Json.str [])]))
        (Except.error "down".data) [] 0).writtenQsr =
      some (llmErrorQsr "down".data) :=
  ⟨by decide,
   ((c2_tier_amended "sys TASK go".data
       (fun _ => PssLoad.loaded (Json.obj
         [("incidents".data, Json.arr []), ("summary".data, Json.str [])]))
       (Except.error "down".data) [] 0 (by decide)).2.1 "down".data
       (by decide) rfl).1⟩

/-- C3 counterexample: a run with one valid PSS whose LLM response parses to
a JSON array.  The QSR file is written, but `qsr_data.get("narrative", ...)`
raises `AttributeError` inside the persistence `try`, the handler at
aggregate_agent.py line 148 swallows it, and no row is inserted. -/
theorem c3_row_insert_counterexample :
    ((aggregate_agent_main "sys TASK go".data
        (fun _ => PssLoad.loaded (Json.obj
          [("incidents".data, Json.arr []), ("summary".data, Json.str [])]))
        (Except.ok (Json.arr [])) [] 5).writtenQsr.isSome = true) ∧
    (aggregate_agent_main "sys TASK go".data
        (fun _ => PssLoad.loaded (Json.obj
          [("incidents".data, Json.arr []), ("summary".data, Json.str [])]))
        (Except.ok (Json.arr [])) [] 5).dbRows.length = 0 := by decide

/-- C3 amended: after writing the QSR, exactly one row — carrying the
narrative, the JSON-serialized risk vector, macro-patterns and recommended
action, the full raw JSON, and the insertion timestamp — is appended whenever
the written QSR is a JSON object, which both error QSRs always are; existing
rows are never updated or deleted.  When the parsed LLM response is not an
object, the persistence step raises internally (caught and logged) and no row
is inserted. -/
theorem c3_row_insert_amended (template : List Char) (loads : List Char → PssLoad)
    (llm : Except (List Char) Json) (db0 : List QsrRow) (ts : Nat)
    (htask : hasTask template = true) :
    (PLATFORM_SURFACES.any (fun s => pssValid (loads s)) = false →
      (aggregate_agent_main template loads llm db0 ts).writtenQsr = some noPssQsr ∧
      (aggregate_agent_main template loads llm db0 ts).dbRows =
        db0 ++ [mkQsrRow noPssQsr ts]) ∧
    (∀ e, PLATFORM_SURFACES.any (fun s => pssValid (loads s)) = true →
      llm = Except.error e →
      (aggregate_agent_main template loads llm db0 ts).writtenQsr =
        some (llmErrorQsr e) ∧
      (aggregate_agent_main template loads llm db0 ts).dbRows =
        db0 ++ [mkQsrRow (llmErrorQsr e) ts]) ∧
    (∀ j, PLATFORM_SURFACES.any (fun s => pssValid (loads s)) = true →
      llm = Except.ok j →
      (aggregate_agent_main template loads llm db0 ts).writtenQsr = some j ∧
      (j.isObj = true →
        (aggregate_agent_main template loads llm db0 ts).dbRows =
          db0 ++ [mkQsrRow j ts]) ∧
      (j.isObj = false →
        (aggregate_agent_main template loads llm db0 ts).dbRows = db0)) ∧
    ((aggregate_agent_main template loads llm db0 ts).dbRows.take db0.length = db0) ∧
    (∀ q t', (mkQsrRow q t').report_ts = t') := by
  obtain ⟨p, hp⟩ := aggregateSplitPrompt_of_hasTask htask
  refine ⟨fun hfound => ?_, fun e hfound hllm => ?_, fun j hfound hllm => ?_, ?_, fun q t' => rfl⟩
  · exact ⟨by simp [aggregate_agent_main, hp, hfound],
           by simp [aggregate_agent_main, hp, hfound, persistQsr, noPssQsr]⟩
  · subst hllm
    exact ⟨by simp [aggregate_agent_main, hp, hfound],
           by simp [aggregate_agent_main, hp, hfound, persistQsr, llmErrorQsr]⟩
  · subst hllm
    refine ⟨by simp [aggregate_agent_main, hp, hfound], fun hobj => ?_, fun hobj => ?_⟩
    · cases j <;> simp [Json.isObj] at hobj
      all_goals simp [aggregate_agent_main, hp, hfound, persistQsr]
    · cases j <;> simp [Json.isObj] at hobj
      all_goals simp [aggregate_agent_main, hp, hfound, persistQsr]
  · simp only [aggregate_agent_main, hp]
    exact persistQsr_take db0 _ ts

/-- Witness for `c3_row_insert_amended` on the no-valid-PSS branch. -/
theorem c3_row_insert_amended_witness :
    hasTask "sys TASK go".data = true ∧
    (aggregate_agent_main "sys TASK go".data (fun _ => PssLoad.fileMissing)
        (Except.error "down".data) [] 7).dbRows = [] ++ [mkQsrRow noPssQsr 7] :=
  ⟨by decide,
   ((c3_row_insert_amended "sys TASK go".data (fun _ => PssLoad.fileMissing)
       (Except.error "down".data) [] 7 (by decide)).1 (by decide)).2⟩

/-- C8 counterexample: with an API key present and a model name recognized by
neither provider, the OpenAI fallback keeps the configured name `"claude-3"`
instead of substituting a canonical default model name. -/
theorem c8_fallback_model_counterexample :
    (get_llm_client_and_model (some "k".data) (some "claude-3".data) true true).toOption
      = some (Provider.openai, "claude-3".data) ∧
    "claude-3".data ≠ DEFAULT_LLM_MODEL ∧
    "claude-3".data ≠ "gemini-pro".data := by decide

/-- C8 amended: the prefix rules and the error condition are as claimed, but
in the fallback the OpenAI branch keeps the configured model name unchanged;
only the Gemini fallback substitutes the default name `"gemini-pro"`. -/
theorem c8_provider_selection_amended (api_key : Option (List Char))
    (mp : List Char) (oa ga : Bool) :
    ((get_llm_client_and_model api_key (some mp) oa ga).toOption = none ↔
      ((api_key.getD []).isEmpty = true ∨ (oa = false ∧ ga = false))) ∧
    ((api_key.getD []).isEmpty = false → "gpt".data.isPrefixOf mp = true → oa = true →
      get_llm_client_and_model api_key (some mp) oa ga =
        Except.ok (Provider.openai, mp)) ∧
    ((api_key.getD []).isEmpty = false → ¬("gpt".data.isPrefixOf mp = true ∧ oa = true) →
      "gemini".data.isPrefixOf mp = true → ga = true →
      get_llm_client_and_model api_key (some mp) oa ga =
        Except.ok (Provider.google, mp)) ∧
    ((api_key.getD []).isEmpty = false → ¬("gpt".data.isPrefixOf mp = true ∧ oa = true) →
      ¬("gemini".data.isPrefixOf mp = true ∧ ga = true) → oa = true →
      get_llm_client_and_model api_key (some mp) oa ga =
        Except.ok (Provider.openai, mp)) ∧
    ((api_key.getD []).isEmpty = false → ¬("gpt".data.isPrefixOf mp = true ∧ oa = true) →
      ¬("gemini".data.isPrefixOf mp = true ∧ ga = true) → oa = false → ga = true →
      get_llm_client_and_model api_key (some mp) oa ga =
        Except.ok (Provider.google, "gemini-pro".data)) := by
  cases hk : (api_key.getD []).isEmpty <;>
    cases h1 : "gpt".data.isPrefixOf mp <;>
      cases h2 : "gemini".data.isPrefixOf mp <;>
        cases oa <;> cases ga <;>
          simp [get_llm_client_and_model, hk, h1, h2, Except.toOption]

/-- Witness for `c8_provider_selection_amended`: the OpenAI fallback keeps an
unrecognized model name, and a missing key is a configuration error. -/
theorem c8_provider_selection_amended_witness :
    (("k".data : List Char).isEmpty = false ∧
      get_llm_client_and_model (some "k".data) (some "claude-3".data) true true =
        Except.ok (Provider.openai, "claude-3".data)) ∧
    (get_llm_client_and_model none (some "claude-3".data) true true).toOption = none :=
  ⟨⟨by decide,
    (c8_provider_selection_amended (some "k".data) "claude-3".data true true).2.2.2.1
      (by decide) (by decide) (by decide) rfl⟩,
   (c8_provider_selection_amended none "claude-3".data true true).1.mpr
     (Or.inl (by decide))⟩


/-- C6 counterexample: on `"A TASK B TASK C"` the code's suffix is
`"TASKB"` — only the stripped text between the first and second occurrences,
glued to the marker — whereas the text from `"TASK"` onward (stripped) is
`"TASK B TASK C"`; the text after the second occurrence is lost, so no
concatenation of the two parts recovers the template's instruction content. -/
theorem c6_split_counterexample :
    (aggregateSplitPrompt "A TASK B TASK C".data).toOption =
      some ("A".data, "TASKB".data) ∧
    specTextFromTaskOnward "A TASK B TASK C".data = "TASK B TASK C".data ∧
    "TASKB".data ≠ "TASK B TASK C".data := by decide

/-- C6 amended: for a template `a ++ "TASK" ++ b` with marker-free `a`, `b`,
both agents produce the prefix `a` stripped (after `{surface}` substitution in
the Summarizer) and the suffix `"TASK"` glued to `b` stripped; when a second
occurrence follows (`b`, `c` marker-free), everything from the second marker
on is discarded and the suffix is still `"TASK"` glued to `b` stripped. -/
theorem c6_split_amended (surface a b c : List Char)
    (ha : findSub TASK a = none) (hb : findSub TASK b = none)
    (hc : findSub TASK c = none) :
    aggregateSplitPrompt (a ++ TASK ++ b) =
      Except.ok (pyStrip a, TASK ++ pyStrip b) ∧
    platformSplitPrompt surface (a ++ TASK ++ b) =
      Except.ok (pyStrip (pyReplace "{surface}".data (pyCapitalize surface) a),
                 TASK ++ pyStrip b) ∧
    aggregateSplitPrompt (a ++ TASK ++ b ++ TASK ++ c) =
      Except.ok (pyStrip a, TASK ++ pyStrip b) := by
  have h2 : pySplitOn TASK (a ++ (TASK ++ b)) = [a, b] := by
    rw [← List.append_assoc,
        pySplitOn_cons (by decide) (findSub_task_boundary b ha), pySplitOn_single hb]
  have h3 : pySplitOn TASK (a ++ (TASK ++ (b ++ (TASK ++ c)))) = [a, b, c] := by
    rw [← List.append_assoc, pySplitOn_cons (by decide) (findSub_task_boundary _ ha),
        ← List.append_assoc,
        pySplitOn_cons (by decide) (findSub_task_boundary c hb), pySplitOn_single hc]
  refine ⟨?_, ?_, ?_⟩ <;>
    simp [aggregateSplitPrompt, platformSplitPrompt, h2, h3, pyGetIndex, List.get?,
      Bind.bind, Except.bind, Pure.pure, Except.pure]

/-- Witness for `c6_split_amended` at concrete marker-free parts. -/
theorem c6_split_amended_witness :
    (findSub TASK "sys ".data = none ∧ findSub TASK " do it ".data = none ∧
      findSub TASK " tail".data = none) ∧
    aggregateSplitPrompt ("sys ".data ++ TASK ++ " do it ".data) =
      Except.ok (pyStrip "sys ".data, TASK ++ pyStrip " do it ".data) ∧
    aggregateSplitPrompt ("sys ".data ++ TASK ++ " do it ".data ++ TASK ++ " tail".data) =
      Except.ok (pyStrip "sys ".data, TASK ++ pyStrip " do it ".data) :=
  ⟨⟨by decide, by decide, by decide⟩,
   (c6_split_amended "gemini".data "sys ".data " do it ".data " tail".data
     (by decide) (by decide) (by decide)).1,
   (c6_split_amended "gemini".data "sys ".data " do it ".data " tail".data
     (by decide) (by decide) (by decide)).2.2⟩

/-! ### Facts about `pyStrip` -/

/-- Python lstrip keeps a string whose first character is not whitespace. -/
theorem pyLStrip_cons_of_not_ws {c : Char} (s : List Char) (h : isPyWS c = false) :
    pyLStrip (c :: s) = c :: s := by
  simp [pyLStrip, List.dropWhile_cons, h]

/-- Python lstrip removes a leading whitespace character. -/
theorem pyLStrip_cons_of_ws {c : Char} (s : List Char) (h : isPyWS c = true) :
    pyLStrip (c :: s) = pyLStrip s := by
  simp [pyLStrip, List.dropWhile_cons, h]

/-- Python rstrip keeps a string whose last character is not whitespace. -/
theorem pyRStrip_append_of_not_ws (s : List Char) {c : Char} (h : isPyWS c = false) :
    pyRStrip (s ++ [c]) = s ++ [c] := by
  simp [pyRStrip, List.reverse_append, List.dropWhile_cons, h]

/-- Python rstrip removes a trailing whitespace character. -/
theorem pyRStrip_append_of_ws (s : List Char) {c : Char} (h : isPyWS c = true) :
    pyRStrip (s ++ [c]) = pyRStrip s := by
  simp [pyRStrip, List.reverse_append, List.dropWhile_cons, h]

/-- Python strip removes a leading whitespace character. -/
theorem pyStrip_cons_of_ws {c : Char} (s : List Char) (h : isPyWS c = true) :
    pyStrip (c :: s) = pyStrip s := by
  unfold pyStrip pyRStrip
  rw [show (c :: s).reverse = s.reverse ++ [c] by simp, List.dropWhile_append]
  cases hemp : (s.reverse.dropWhile isPyWS).isEmpty
  · simp [hemp]
    rw [pyLStrip_cons_of_ws _ h]
  · simp [hemp, List.dropWhile_cons, h]
    rw [List.isEmpty_iff] at hemp
    simp [hemp, pyLStrip]

/-- Python strip removes a trailing whitespace character. -/
theorem pyStrip_append_of_ws (s : List Char) {c : Char} (h : isPyWS c = true) :
    pyStrip (s ++ [c]) = pyStrip s := by
  unfold pyStrip
  rw [pyRStrip_append_of_ws s h]


/-- The whole json-fence-wrapped text is already stripped: it starts and ends
with a backtick. -/
theorem c7aux_strip (p : List Char) :
    pyStrip (btick :: btick :: btick :: 'j' :: 's' :: 'o' :: 'n' :: '\n' ::
      (p ++ ('\n' :: btick :: btick :: [btick]))) =
    btick :: btick :: btick :: 'j' :: 's' :: 'o' :: 'n' :: '\n' ::
      (p ++ ('\n' :: btick :: btick :: [btick])) := by
  have hbq : isPyWS btick = false := by decide
  have h1 : btick :: btick :: btick :: 'j' :: 's' :: 'o' :: 'n' :: '\n' ::
      (p ++ ('\n' :: btick :: btick :: [btick])) =
      (btick :: btick :: btick :: 'j' :: 's' :: 'o' :: 'n' :: '\n' ::
        (p ++ ['\n', btick, btick])) ++ [btick] := by
    simp
  rw [pyStrip, h1, pyRStrip_append_of_not_ws _ hbq, ← h1,
      pyLStrip_cons_of_not_ws _ hbq]

/-- Fence cleanup on a ```` ```json ````-wrapped payload in cons-normal form. -/
theorem c7aux_json (p : List Char) :
    stripMarkdownFence (btick :: btick :: btick :: 'j' :: 's' :: 'o' :: 'n' :: '\n' ::
      (p ++ ('\n' :: btick :: btick :: [btick]))) = pyStrip p := by
  rw [stripMarkdownFence, c7aux_strip]
  rw [if_pos (by
    apply List.isPrefixOf_iff_prefix.mpr
    exact ⟨'\n' :: (p ++ ('\n' :: btick :: btick :: [btick])), by simp [fenceJsonTag]⟩)]
  have hdrop : pySliceMid 7 3 (btick :: btick :: btick :: 'j' :: 's' :: 'o' :: 'n' :: '\n' ::
      (p ++ ('\n' :: btick :: btick :: [btick]))) = '\n' :: (p ++ ['\n']) := by
    rw [pySliceMid]
    rw [show (btick :: btick :: btick :: 'j' :: 's' :: 'o' :: 'n' :: '\n' ::
      (p ++ ('\n' :: btick :: btick :: [btick]))).length - 3 - 7 = p.length + 2 by
        simp [List.length_append]]
    rw [show List.drop 7 (btick :: btick :: btick :: 'j' :: 's' :: 'o' :: 'n' :: '\n' ::
      (p ++ ('\n' :: btick :: btick :: [btick]))) =
        '\n' :: (p ++ ('\n' :: btick :: btick :: [btick])) from rfl]
    rw [List.take_succ_cons, List.take_append_eq_append_take,
        List.take_of_length_le (by omega), show p.length + 1 - p.length = 1 by omega]
    rfl
  rw [hdrop, pyStrip_cons_of_ws _ (by decide), pyStrip_append_of_ws _ (by decide)]

/-- The whole bare-fence-wrapped text is already stripped. -/
theorem c7aux_strip_bare (p : List Char) :
    pyStrip (btick :: btick :: btick :: '\n' ::
      (p ++ ('\n' :: btick :: btick :: [btick]))) =
    btick :: btick :: btick :: '\n' ::
      (p ++ ('\n' :: btick :: btick :: [btick])) := by
  have hbq : isPyWS btick = false := by decide
  have h1 : btick :: btick :: btick :: '\n' ::
      (p ++ ('\n' :: btick :: btick :: [btick])) =
      (btick :: btick :: btick :: '\n' ::
        (p ++ ['\n', btick, btick])) ++ [btick] := by
    simp
  rw [pyStrip, h1, pyRStrip_append_of_not_ws _ hbq, ← h1,
      pyLStrip_cons_of_not_ws _ hbq]

/-- Fence cleanup on a bare ```` ``` ````-wrapped payload in cons-normal form. -/
theorem c7aux_bare (p : List Char) :
    stripMarkdownFence (btick :: btick :: btick :: '\n' ::
      (p ++ ('\n' :: btick :: btick :: [btick]))) = pyStrip p := by
  rw [stripMarkdownFence, c7aux_strip_bare]
  rw [if_neg (by simp [fenceJsonTag, List.isPrefixOf])]
  rw [if_pos (by
    apply List.isPrefixOf_iff_prefix.mpr
    exact ⟨'\n' :: (p ++ ('\n' :: btick :: btick :: [btick])), by simp [fenceTag]⟩)]
  have hdrop : pySliceMid 3 3 (btick :: btick :: btick :: '\n' ::
      (p ++ ('\n' :: btick :: btick :: [btick]))) = '\n' :: (p ++ ['\n']) := by
    rw [pySliceMid]
    rw [show (btick :: btick :: btick :: '\n' ::
      (p ++ ('\n' :: btick :: btick :: [btick]))).length - 3 - 3 = p.length + 2 by
        simp [List.length_append]]
    rw [show List.drop 3 (btick :: btick :: btick :: '\n' ::
      (p ++ ('\n' :: btick :: btick :: [btick]))) =
        '\n' :: (p ++ ('\n' :: btick :: btick :: [btick])) from rfl]
    rw [List.take_succ_cons, List.take_append_eq_append_take,
        List.take_of_length_le (by omega), show p.length + 1 - p.length = 1 by omega]
    rfl
  rw [hdrop, pyStrip_cons_of_ws _ (by decide), pyStrip_append_of_ws _ (by decide)]

/-- C7: `query_llm`'s Gemini-branch cleanup removes the Markdown code-fence
wrapping: stripping a fence-wrapped payload always yields the payload stripped
of surrounding whitespace, for every payload, for both the ```` ```json ````
and the bare ```` ``` ```` opening fence. -/
theorem c7_fence_wrapped_payload (p : List Char) :
    stripMarkdownFence ("```json\n".data ++ p ++ "\n```".data) = pyStrip p ∧
    stripMarkdownFence ("```\n".data ++ p ++ "\n```".data) = pyStrip p := by
  constructor
  · rw [show "```json\n".data ++ p ++ "\n```".data =
      btick :: btick :: btick :: 'j' :: 's' :: 'o' :: 'n' :: '\n' ::
        (p ++ ('\n' :: btick :: btick :: [btick])) by
        rw [show "```json\n".data =
          [btick, btick, btick, 'j', 's', 'o', 'n', '\n'] by decide,
          show "\n```".data = ['\n', btick, btick, btick] by decide]
        simp]
    exact c7aux_json p
  · rw [show "```\n".data ++ p ++ "\n```".data =
      btick :: btick :: btick :: '\n' ::
        (p ++ ('\n' :: btick :: btick :: [btick])) by
        rw [show "```\n".data = [btick, btick, btick, '\n'] by decide,
          show "\n```".data = ['\n', btick, btick, btick] by decide]
        simp]
    exact c7aux_bare p

/-! ### Support for the `json.dumps`/`json.loads` round trip -/

theorem delimOk_nil : delimOk [] := fun c h => by cases h

theorem delimOk_cons {c : Char} (rest : List Char) (h : c.isDigit = false) :
    delimOk (c :: rest) := by
  intro c' h'
  cases h'
  exact h

theorem spaces_length (n : Nat) : (spaces n).length = n := by
  induction n with
  | zero => rfl
  | succ n ih => simp [spaces, ih]

theorem skipWs_ws_append {w : List Char} (s : List Char)
    (hw : ∀ c ∈ w, isJsonWs c = true) : skipWs (w ++ s) = skipWs s := by
  induction w with
  | nil => rfl
  | cons c cs ih =>
    rw [List.cons_append, skipWs, List.dropWhile_cons,
        if_pos (by simp [hw c (by simp)])]
    exact ih (fun d hd => hw d (by simp [hd]))

theorem spaces_all_ws (n : Nat) : ∀ c ∈ spaces n, isJsonWs c = true := by
  induction n with
  | zero => simp [spaces]
  | succ n ih =>
    intro c hc
    rw [spaces] at hc
    rcases List.mem_cons.mp hc with h | h
    · subst h; rfl
    · exact ih c h

theorem skipWs_spaces (n : Nat) (s : List Char) :
    skipWs (spaces n ++ s) = skipWs s :=
  skipWs_ws_append s (spaces_all_ws n)

theorem skipWs_cons_ws {c : Char} (s : List Char) (h : isJsonWs c = true) :
    skipWs (c :: s) = skipWs s := by
  rw [skipWs, List.dropWhile_cons, if_pos (by simp [h])]
  rfl

theorem skipWs_cons_not_ws {c : Char} (s : List Char) (h : isJsonWs c = false) :
    skipWs (c :: s) = c :: s := by
  rw [skipWs, List.dropWhile_cons, if_neg (by simp [h])]

theorem parseVal_ws_append {w : List Char} (fuel : Nat) (s : List Char)
    (hw : ∀ c ∈ w, isJsonWs c = true) :
    parseVal fuel (w ++ s) = parseVal fuel s := by
  cases fuel with
  | zero => rfl
  | succ f => rw [parseVal, parseVal, skipWs_ws_append s hw]

theorem parseItems_ws_append {w : List Char} (fuel : Nat) (s : List Char)
    (hw : ∀ c ∈ w, isJsonWs c = true) :
    parseItems fuel (w ++ s) = parseItems fuel s := by
  cases fuel with
  | zero => rfl
  | succ f => rw [parseItems, parseItems, parseVal_ws_append f s hw]

theorem parseMembers_ws_append {w : List Char} (fuel : Nat) (s : List Char)
    (hw : ∀ c ∈ w, isJsonWs c = true) :
    parseMembers fuel (w ++ s) = parseMembers fuel s := by
  cases fuel with
  | zero => rfl
  | succ f => rw [parseMembers, parseMembers, skipWs_ws_append s hw]

theorem natToDigits_ne_nil (n : Nat) : natToDigits n ≠ [] := by
  rw [natToDigits]
  split <;> simp

theorem natToDigits_all_digits (n : Nat) : ∀ c ∈ natToDigits n, c.isDigit = true := by
  induction n using Nat.strong_induction_on with
  | _ n ih =>
    intro c hc
    rw [natToDigits] at hc
    split at hc
    · next h =>
      have hd : ∀ m < 10, (digitChar m).isDigit = true := by decide
      rcases List.mem_singleton.mp hc
      exact hd n h
    · next h =>
      rcases List.mem_append.mp hc with h1 | h1
      · exact ih (n / 10) (Nat.div_lt_self (by omega) (by omega)) c h1
      · have hd : ∀ m < 10, (digitChar m).isDigit = true := by decide
        rcases List.mem_singleton.mp h1
        exact hd (n % 10) (Nat.mod_lt _ (by omega))

theorem digitsToNat_natToDigits_aux (n : Nat) :
    ∀ a : Nat, (natToDigits n).foldl (fun x c => x * 10 + (c.toNat - 48)) a =
      a * 10 ^ (natToDigits n).length + n := by
  induction n using Nat.strong_induction_on with
  | _ n ih =>
    intro a
    rw [natToDigits]
    split
    · next h =>
      have hd : ∀ m < 10, (digitChar m).toNat = 48 + m := by decide
      simp [List.foldl, hd n h]
    · next h =>
      have hd : ∀ m < 10, (digitChar m).toNat = 48 + m := by decide
      rw [List.foldl_append]
      rw [ih (n / 10) (Nat.div_lt_self (by omega) (by omega)) a]
      simp [List.foldl, hd (n % 10) (Nat.mod_lt _ (by omega)), List.length_append]
      ring_nf
      omega

theorem digitsToNat_natToDigits (n : Nat) : digitsToNat (natToDigits n) = n := by
  rw [digitsToNat, digitsToNat_natToDigits_aux n 0]
  simp

theorem takeWhile_digits_append {l rest : List Char}
    (hl : ∀ c ∈ l, Char.isDigit c = true) (hr : delimOk rest) :
    (l ++ rest).takeWhile Char.isDigit = l ∧
    (l ++ rest).dropWhile Char.isDigit = rest := by
  induction l with
  | nil =>
    simp only [List.nil_append]
    cases rest with
    | nil => simp
    | cons c r =>
      have := hr c rfl
      simp [List.takeWhile_cons, List.dropWhile_cons, this]
  | cons c cs ih =>
    have hc := hl c (by simp)
    have hih := ih (fun d hd => hl d (by simp [hd]))
    simp [List.takeWhile_cons, List.dropWhile_cons, hc, hih.1, hih.2]

theorem parseNumber_intToChars (n : Int) (rest : List Char) (hr : delimOk rest) :
    parseNumber (intToChars n ++ rest) = some (n, rest) := by
  cases n with
  | ofNat m =>
    rw [intToChars]
    obtain ⟨c, t, hct⟩ := List.exists_cons_of_ne_nil (natToDigits_ne_nil m)
    have hcd : c.isDigit = true := natToDigits_all_digits m c (by rw [hct]; simp)
    have hcne : c ≠ '-' := by
      intro he
      rw [he] at hcd
      exact absurd hcd (by decide)
    have hw := takeWhile_digits_append (natToDigits_all_digits m) hr
    rw [parseNumber, if_neg (by rw [hct]; simp [hcne])]
    rw [parseNatNum]
    simp only [hw.1, hw.2]
    rw [if_neg (by simp [natToDigits_ne_nil m])]
    simp [digitsToNat_natToDigits]
  | negSucc m =>
    rw [intToChars]
    have hw := takeWhile_digits_append (natToDigits_all_digits (m + 1)) hr
    rw [List.cons_append, parseNumber, if_pos (by simp)]
    simp only [List.tail_cons]
    rw [parseNatNum]
    simp only [hw.1, hw.2]
    rw [if_neg (by simp [natToDigits_ne_nil (m + 1)])]
    simp [digitsToNat_natToDigits, Int.negSucc_eq]

theorem hexVal_hexDigitChar : ∀ d, d < 16 → hexVal (hexDigitChar d) = some d := by
  decide

theorem escapeChar_length_pos (c : Char) : 1 ≤ (escapeChar c).length := by
  rw [escapeChar]
  split_ifs <;> simp

theorem unescapeSeq_quote (r : List Char) : unescapeSeq ('"' :: r) = some ('"', r) := rfl
theorem unescapeSeq_backslash (r : List Char) : unescapeSeq ('\\' :: r) = some ('\\', r) := rfl
theorem unescapeSeq_n (r : List Char) : unescapeSeq ('n' :: r) = some ('\n', r) := rfl
theorem unescapeSeq_t (r : List Char) : unescapeSeq ('t' :: r) = some ('\t', r) := rfl
theorem unescapeSeq_r (r : List Char) : unescapeSeq ('r' :: r) = some ('\r', r) := rfl
theorem unescapeSeq_b (r : List Char) : unescapeSeq ('b' :: r) = some (Char.ofNat 8, r) := rfl
theorem unescapeSeq_f (r : List Char) : unescapeSeq ('f' :: r) = some (Char.ofNat 12, r) := rfl

theorem parseStringRest_escapeString (s : List Char) :
    ∀ fuel rest, (escapeString s).length < fuel →
      parseStringRest fuel (escapeString s ++ ('"' :: rest)) = some (s, rest) := by
  induction s with
  | nil =>
    intro fuel rest hf
    obtain ⟨f, rfl⟩ : ∃ f, fuel = f + 1 :=
      ⟨fuel - 1, by simp [escapeString] at hf; omega⟩
    simp [escapeString, parseStringRest]
  | cons c cs ih =>
    intro fuel rest hf
    rw [escapeString, List.length_append] at hf
    obtain ⟨f, rfl⟩ : ∃ f, fuel = f + 1 :=
      ⟨fuel - 1, by have := escapeChar_length_pos c; omega⟩
    rw [escapeString, List.append_assoc]
    rw [escapeChar] at hf ⊢
    split_ifs at hf ⊢ with h1 h2 h3 h4 h5 h6 h7 h8
    · subst h1
      simp only [List.cons_append, List.nil_append, List.length_cons] at hf ⊢
      rw [parseStringRest, if_neg (by decide), if_pos rfl, unescapeSeq_quote]
      simp [ih f rest (by omega)]
    · subst h2
      simp only [List.cons_append, List.nil_append, List.length_cons] at hf ⊢
      rw [parseStringRest, if_neg (by decide), if_pos rfl, unescapeSeq_backslash]
      simp [ih f rest (by omega)]
    · subst h3
      simp only [List.cons_append, List.nil_append, List.length_cons] at hf ⊢
      rw [parseStringRest, if_neg (by decide), if_pos rfl, unescapeSeq_n]
      simp [ih f rest (by omega)]
    · subst h4
      simp only [List.cons_append, List.nil_append, List.length_cons] at hf ⊢
      rw [parseStringRest, if_neg (by decide), if_pos rfl, unescapeSeq_t]
      simp [ih f rest (by omega)]
    · subst h5
      simp only [List.cons_append, List.nil_append, List.length_cons] at hf ⊢
      rw [parseStringRest, if_neg (by decide), if_pos rfl, unescapeSeq_r]
      simp [ih f rest (by omega)]
    · subst h6
      simp only [List.cons_append, List.nil_append, List.length_cons] at hf ⊢
      rw [parseStringRest, if_neg (by decide), if_pos rfl, unescapeSeq_b]
      simp [ih f rest (by omega)]
    · subst h7
      simp only [List.cons_append, List.nil_append, List.length_cons] at hf ⊢
      rw [parseStringRest, if_neg (by decide), if_pos rfl, unescapeSeq_f]
      simp [ih f rest (by omega)]
    · -- the \u00XX escape for other control characters
      have hdiv : c.toNat / 16 < 16 := by omega
      have hmod : c.toNat % 16 < 16 := by omega
      simp only [List.cons_append, List.nil_append, List.length_cons] at hf ⊢
      rw [parseStringRest, if_neg (by decide), if_pos rfl, unescapeSeq,
        if_neg (by decide), if_neg (by decide), if_neg (by decide), if_neg (by decide),
        if_neg (by decide), if_neg (by decide), if_neg (by decide), if_neg (by decide),
        if_pos rfl]
      simp only [show hexVal '0' = some 0 from rfl, hexVal_hexDigitChar _ hdiv,
        hexVal_hexDigitChar _ hmod]
      rw [show ((0 * 16 + 0) * 16 + c.toNat / 16) * 16 + c.toNat % 16 = c.toNat by omega]
      rw [if_pos (Or.inl (by omega)), Char.ofNat_toNat]
      simp [ih f rest (by omega)]
    · -- plain character, emitted as itself
      simp only [List.cons_append, List.nil_append, List.length_cons] at hf ⊢
      rw [parseStringRest, if_neg h1, if_neg h2]
      simp [ih f rest (by omega)]

theorem ne_of_isDigit {c d : Char} (h : c.isDigit = true) (hd : d.isDigit = false) :
    ¬ d = c := fun he => by rw [he, h] at hd; cases hd

theorem digit_head_facts {c : Char} (h : c.isDigit = true) :
    isJsonWs c = false ∧ c ≠ ']' ∧ c ≠ '\x7d' := by
  refine ⟨?_, ?_, ?_⟩
  · cases hw : isJsonWs c
    · rfl
    · exfalso
      have hw' : c = ' ' ∨ c = '\t' ∨ c = '\n' ∨ c = '\r' := by
        simpa [isJsonWs, or_assoc] using hw
      rcases hw' with h' | h' | h' | h' <;> (subst h'; exact absurd h (by decide))
  · intro he; subst he; exact absurd h (by decide)
  · intro he; subst he; exact absurd h (by decide)

theorem isPrefixOf_head_ne {a c : Char} (ps t : List Char) (h : ¬ a = c) :
    (a :: ps).isPrefixOf (c :: t) = false := by
  simp [List.isPrefixOf, h]

/-- The first character of any serialized value: it exists, is not
whitespace, and is neither a closing bracket nor a closing brace. -/
theorem dumpsV_head (ind : Nat) (j : Json) :
    ∃ c t, dumpsV ind j = c :: t ∧ isJsonWs c = false ∧ c ≠ ']' ∧ c ≠ '\x7d' := by
  cases j with
  | null =>
    exact ⟨'n', ['u', 'l', 'l'], by rw [dumpsV], by decide, by decide, by decide⟩
  | bool b =>
    cases b with
    | false =>
      exact ⟨'f', ['a', 'l', 's', 'e'], by rw [dumpsV],
        by decide, by decide, by decide⟩
    | true =>
      exact ⟨'t', ['r', 'u', 'e'], by rw [dumpsV], by decide, by decide, by decide⟩
  | num n =>
    cases n with
    | ofNat m =>
      obtain ⟨c, t, hct⟩ := List.exists_cons_of_ne_nil (natToDigits_ne_nil m)
      have hcd : c.isDigit = true := natToDigits_all_digits m c (by rw [hct]; simp)
      obtain ⟨h1, h2, h3⟩ := digit_head_facts hcd
      exact ⟨c, t, by rw [dumpsV, intToChars, hct], h1, h2, h3⟩
    | negSucc m =>
      obtain ⟨c, t, hct⟩ := List.exists_cons_of_ne_nil (natToDigits_ne_nil (m + 1))
      exact ⟨'-', natToDigits (m + 1), by rw [dumpsV, intToChars],
        by decide, by decide, by decide⟩
  | str s =>
    exact ⟨'"', escapeString s ++ ['"'], by rw [dumpsV], by decide, by decide, by decide⟩
  | arr es =>
    cases es with
    | nil => exact ⟨'[', [']'], by rw [dumpsV], by decide, by decide, by decide⟩
    | cons e es =>
      refine ⟨'[', _, by rw [dumpsV], by decide, by decide, by decide⟩
  | obj ms =>
    cases ms with
    | nil => exact ⟨'\x7b', ['\x7d'], by rw [dumpsV], by decide, by decide, by decide⟩
    | cons m ms =>
      refine ⟨'\x7b', _, by rw [dumpsV], by decide, by decide, by decide⟩

theorem json_sizeOf_pos (j : Json) : 0 < sizeOf j := by
  cases j <;> simp_arith

theorem listJson_sizeOf_pos (l : List Json) : 0 < sizeOf l := by
  cases l <;> simp_arith

theorem listMember_sizeOf_pos (l : List (List Char × Json)) : 0 < sizeOf l := by
  cases l <;> simp_arith

theorem intToChars_head (n : Int) :
    ∃ c t, intToChars n = c :: t ∧ isJsonWs c = false ∧
      ¬ 'n' = c ∧ ¬ 't' = c ∧ ¬ 'f' = c ∧ ¬c = '"' ∧ ¬c = '[' ∧ ¬c = '\x7b' := by
  cases n with
  | ofNat m =>
    obtain ⟨c, t, hct⟩ := List.exists_cons_of_ne_nil (natToDigits_ne_nil m)
    have hcd : c.isDigit = true := natToDigits_all_digits m c (by rw [hct]; simp)
    refine ⟨c, t, by rw [intToChars, hct], (digit_head_facts hcd).1,
      ne_of_isDigit hcd (by decide), ne_of_isDigit hcd (by decide),
      ne_of_isDigit hcd (by decide), ?_, ?_, ?_⟩
    · exact fun he => (ne_of_isDigit hcd (by decide)) he.symm
    · exact fun he => (ne_of_isDigit hcd (by decide)) he.symm
    · exact fun he => (ne_of_isDigit hcd (by decide)) he.symm
  | negSucc m =>
    exact ⟨'-', natToDigits (m + 1), by rw [intToChars], by decide, by decide,
      by decide, by decide, by decide, by decide, by decide⟩

theorem parseVal_null (ind fuel : Nat) (rest : List Char)
    (hf : 0 < fuel) :
    parseVal fuel (dumpsV ind Json.null ++ rest) = some (Json.null, rest) := by
  obtain ⟨f, rfl⟩ : ∃ f, fuel = f + 1 := ⟨fuel - 1, by omega⟩
  rw [show dumpsV ind Json.null = ['n', 'u', 'l', 'l'] by rw [dumpsV]]
  rw [parseVal]
  simp only [List.cons_append, List.nil_append]
  rw [skipWs_cons_not_ws _ (by decide)]
  rw [if_pos (show ['n', 'u', 'l', 'l'].isPrefixOf ('n' :: 'u' :: 'l' :: 'l' :: rest) = true
    from List.isPrefixOf_iff_prefix.mpr ⟨rest, rfl⟩)]
  simp

theorem not_eq_true_of_eq_false {b : Bool} (h : b = false) : ¬(b = true) := by
  simp [h]

theorem parseVal_bool (b : Bool) (ind fuel : Nat) (rest : List Char)
    (hf : 0 < fuel) :
    parseVal fuel (dumpsV ind (Json.bool b) ++ rest) = some (Json.bool b, rest) := by
  obtain ⟨f, rfl⟩ : ∃ f, fuel = f + 1 := ⟨fuel - 1, by omega⟩
  cases b with
  | true =>
    rw [show dumpsV ind (Json.bool true) = ['t', 'r', 'u', 'e'] by rw [dumpsV]]
    rw [parseVal]
    simp only [List.cons_append, List.nil_append]
    rw [skipWs_cons_not_ws _ (by decide)]
    rw [if_neg (show ¬(['n', 'u', 'l', 'l'].isPrefixOf ('t' :: 'r' :: 'u' :: 'e' :: rest) = true)
      from not_eq_true_of_eq_false (isPrefixOf_head_ne _ _ (by decide)))]
    rw [if_pos (show ['t', 'r', 'u', 'e'].isPrefixOf ('t' :: 'r' :: 'u' :: 'e' :: rest) = true
      from List.isPrefixOf_iff_prefix.mpr ⟨rest, rfl⟩)]
    simp
  | false =>
    rw [show dumpsV ind (Json.bool false) = ['f', 'a', 'l', 's', 'e'] by rw [dumpsV]]
    rw [parseVal]
    simp only [List.cons_append, List.nil_append]
    rw [skipWs_cons_not_ws _ (by decide)]
    rw [if_neg (show ¬(['n', 'u', 'l', 'l'].isPrefixOf
        ('f' :: 'a' :: 'l' :: 's' :: 'e' :: rest) = true)
      from not_eq_true_of_eq_false (isPrefixOf_head_ne _ _ (by decide)))]
    rw [if_neg (show ¬(['t', 'r', 'u', 'e'].isPrefixOf
        ('f' :: 'a' :: 'l' :: 's' :: 'e' :: rest) = true)
      from not_eq_true_of_eq_false (isPrefixOf_head_ne _ _ (by decide)))]
    rw [if_pos (show ['f', 'a', 'l', 's', 'e'].isPrefixOf
        ('f' :: 'a' :: 'l' :: 's' :: 'e' :: rest) = true
      from List.isPrefixOf_iff_prefix.mpr ⟨rest, rfl⟩)]
    simp

theorem parseVal_num (n : Int) (ind fuel : Nat) (rest : List Char)
    (hf : 0 < fuel) (hr : delimOk rest) :
    parseVal fuel (dumpsV ind (Json.num n) ++ rest) = some (Json.num n, rest) := by
  obtain ⟨f, rfl⟩ : ∃ f, fuel = f + 1 := ⟨fuel - 1, by omega⟩
  rw [show dumpsV ind (Json.num n) = intToChars n by rw [dumpsV]]
  obtain ⟨c, t0, hct, hnw, hn1, hn2, hn3, hn4, hn5, hn6⟩ := intToChars_head n
  rw [parseVal, hct, List.cons_append]
  rw [skipWs_cons_not_ws _ hnw]
  rw [if_neg (show ¬(['n', 'u', 'l', 'l'].isPrefixOf (c :: (t0 ++ rest)) = true)
    from not_eq_true_of_eq_false (isPrefixOf_head_ne _ _ hn1))]
  rw [if_neg (show ¬(['t', 'r', 'u', 'e'].isPrefixOf (c :: (t0 ++ rest)) = true)
    from not_eq_true_of_eq_false (isPrefixOf_head_ne _ _ hn2))]
  rw [if_neg (show ¬(['f', 'a', 'l', 's', 'e'].isPrefixOf (c :: (t0 ++ rest)) = true)
    from not_eq_true_of_eq_false (isPrefixOf_head_ne _ _ hn3))]
  rw [if_neg (show ¬((c :: (t0 ++ rest)).head? = some '"') by simp [hn4])]
  rw [if_neg (show ¬((c :: (t0 ++ rest)).head? = some '[') by simp [hn5])]
  rw [if_neg (show ¬((c :: (t0 ++ rest)).head? = some '\x7b') by simp [hn6])]
  rw [← List.cons_append, ← hct, parseNumber_intToChars n rest hr]
  rfl

theorem parseVal_str (s : List Char) (ind fuel : Nat) (rest : List Char)
    (hf : 0 < fuel) :
    parseVal fuel (dumpsV ind (Json.str s) ++ rest) = some (Json.str s, rest) := by
  obtain ⟨f, rfl⟩ : ∃ f, fuel = f + 1 := ⟨fuel - 1, by omega⟩
  rw [show dumpsV ind (Json.str s) = '"' :: (escapeString s ++ ['"']) by rw [dumpsV]]
  rw [parseVal, List.cons_append]
  rw [skipWs_cons_not_ws _ (by decide)]
  rw [if_neg (show ¬(['n', 'u', 'l', 'l'].isPrefixOf
      ('"' :: (escapeString s ++ ['"'] ++ rest)) = true)
    from not_eq_true_of_eq_false (isPrefixOf_head_ne _ _ (by decide)))]
  rw [if_neg (show ¬(['t', 'r', 'u', 'e'].isPrefixOf
      ('"' :: (escapeString s ++ ['"'] ++ rest)) = true)
    from not_eq_true_of_eq_false (isPrefixOf_head_ne _ _ (by decide)))]
  rw [if_neg (show ¬(['f', 'a', 'l', 's', 'e'].isPrefixOf
      ('"' :: (escapeString s ++ ['"'] ++ rest)) = true)
    from not_eq_true_of_eq_false (isPrefixOf_head_ne _ _ (by decide)))]
  rw [if_pos (show ('"' :: (escapeString s ++ ['"'] ++ rest)).head? = some '"' from rfl)]
  simp only [List.tail_cons]
  rw [show escapeString s ++ ['"'] ++ rest = escapeString s ++ ('"' :: rest) by simp]
  rw [parseStringRest_escapeString s _ rest (by simp [List.length_append]; omega)]
  rfl

theorem parseVal_arr_nil (ind fuel : Nat) (rest : List Char) (hf : 0 < fuel) :
    parseVal fuel (dumpsV ind (Json.arr []) ++ rest) = some (Json.arr [], rest) := by
  obtain ⟨f, rfl⟩ : ∃ f, fuel = f + 1 := ⟨fuel - 1, by omega⟩
  rw [show dumpsV ind (Json.arr []) = ['[', ']'] by rw [dumpsV]]
  rw [parseVal]
  simp only [List.cons_append, List.nil_append]
  rw [skipWs_cons_not_ws _ (by decide)]
  rw [if_neg (show ¬(['n', 'u', 'l', 'l'].isPrefixOf ('[' :: ']' :: rest) = true)
    from not_eq_true_of_eq_false (isPrefixOf_head_ne _ _ (by decide)))]
  rw [if_neg (show ¬(['t', 'r', 'u', 'e'].isPrefixOf ('[' :: ']' :: rest) = true)
    from not_eq_true_of_eq_false (isPrefixOf_head_ne _ _ (by decide)))]
  rw [if_neg (show ¬(['f', 'a', 'l', 's', 'e'].isPrefixOf ('[' :: ']' :: rest) = true)
    from not_eq_true_of_eq_false (isPrefixOf_head_ne _ _ (by decide)))]
  rw [if_neg (show ¬(('[' :: ']' :: rest).head? = some '"') by simp)]
  rw [if_pos (show ('[' :: ']' :: rest).head? = some '[' from rfl)]
  simp only [List.tail_cons]
  rw [skipWs_cons_not_ws _ (by decide)]
  rw [if_pos (show (']' :: rest).head? = some ']' from rfl)]
  rfl

theorem parseVal_obj_nil (ind fuel : Nat) (rest : List Char) (hf : 0 < fuel) :
    parseVal fuel (dumpsV ind (Json.obj []) ++ rest) = some (Json.obj [], rest) := by
  obtain ⟨f, rfl⟩ : ∃ f, fuel = f + 1 := ⟨fuel - 1, by omega⟩
  rw [show dumpsV ind (Json.obj []) = ['\x7b', '\x7d'] by rw [dumpsV]]
  rw [parseVal]
  simp only [List.cons_append, List.nil_append]
  rw [skipWs_cons_not_ws _ (by decide)]
  rw [if_neg (show ¬(['n', 'u', 'l', 'l'].isPrefixOf ('\x7b' :: '\x7d' :: rest) = true)
    from not_eq_true_of_eq_false (isPrefixOf_head_ne _ _ (by decide)))]
  rw [if_neg (show ¬(['t', 'r', 'u', 'e'].isPrefixOf ('\x7b' :: '\x7d' :: rest) = true)
    from not_eq_true_of_eq_false (isPrefixOf_head_ne _ _ (by decide)))]
  rw [if_neg (show ¬(['f', 'a', 'l', 's', 'e'].isPrefixOf ('\x7b' :: '\x7d' :: rest) = true)
    from not_eq_true_of_eq_false (isPrefixOf_head_ne _ _ (by decide)))]
  rw [if_neg (show ¬(('\x7b' :: '\x7d' :: rest).head? = some '"') by simp)]
  rw [if_neg (show ¬(('\x7b' :: '\x7d' :: rest).head? = some '[') by simp)]
  rw [if_pos (show ('\x7b' :: '\x7d' :: rest).head? = some '\x7b' from rfl)]
  simp only [List.tail_cons]
  rw [skipWs_cons_not_ws _ (by decide)]
  rw [if_pos (show ('\x7d' :: rest).head? = some '\x7d' from rfl)]
  rfl

theorem parseVal_open_bracket (f : Nat) (Y : List Char) :
    parseVal (f + 1) ('[' :: Y) =
      (if (skipWs Y).head? = some ']' then some (Json.arr [], (skipWs Y).tail)
       else (parseItems f Y).map (fun p => (Json.arr p.1, p.2))) := by
  rw [parseVal]
  rw [skipWs_cons_not_ws _ (by decide)]
  rw [if_neg (show ¬(['n', 'u', 'l', 'l'].isPrefixOf ('[' :: Y) = true)
    from not_eq_true_of_eq_false (isPrefixOf_head_ne _ _ (by decide)))]
  rw [if_neg (show ¬(['t', 'r', 'u', 'e'].isPrefixOf ('[' :: Y) = true)
    from not_eq_true_of_eq_false (isPrefixOf_head_ne _ _ (by decide)))]
  rw [if_neg (show ¬(['f', 'a', 'l', 's', 'e'].isPrefixOf ('[' :: Y) = true)
    from not_eq_true_of_eq_false (isPrefixOf_head_ne _ _ (by decide)))]
  rw [if_neg (show ¬(('[' :: Y).head? = some '"') by simp)]
  rw [if_pos (show ('[' :: Y).head? = some '[' from rfl)]
  rfl

theorem parseVal_open_brace (f : Nat) (Y : List Char) :
    parseVal (f + 1) ('\x7b' :: Y) =
      (if (skipWs Y).head? = some '\x7d' then some (Json.obj [], (skipWs Y).tail)
       else (parseMembers f Y).map (fun p => (Json.obj p.1, p.2))) := by
  rw [parseVal]
  rw [skipWs_cons_not_ws _ (by decide)]
  rw [if_neg (show ¬(['n', 'u', 'l', 'l'].isPrefixOf ('\x7b' :: Y) = true)
    from not_eq_true_of_eq_false (isPrefixOf_head_ne _ _ (by decide)))]
  rw [if_neg (show ¬(['t', 'r', 'u', 'e'].isPrefixOf ('\x7b' :: Y) = true)
    from not_eq_true_of_eq_false (isPrefixOf_head_ne _ _ (by decide)))]
  rw [if_neg (show ¬(['f', 'a', 'l', 's', 'e'].isPrefixOf ('\x7b' :: Y) = true)
    from not_eq_true_of_eq_false (isPrefixOf_head_ne _ _ (by decide)))]
  rw [if_neg (show ¬(('\x7b' :: Y).head? = some '"') by simp)]
  rw [if_neg (show ¬(('\x7b' :: Y).head? = some '[') by simp)]
  rw [if_pos (show ('\x7b' :: Y).head? = some '\x7b' from rfl)]
  rfl

theorem nl_spaces_all_ws (n : Nat) : ∀ c ∈ '\n' :: spaces n, isJsonWs c = true := by
  intro c hc
  rcases List.mem_cons.mp hc with h | h
  · subst h; rfl
  · exact spaces_all_ws n c h

theorem parseItems_step (f : Nat) (s r : List Char) (j : Json)
    (h : parseVal f s = some (j, r)) :
    parseItems (f + 1) s =
      (if (skipWs r).head? = some ',' then
        (parseItems f (skipWs r).tail).map (fun p => (j :: p.1, p.2))
       else if (skipWs r).head? = some ']' then some ([j], (skipWs r).tail)
       else none) := by
  rw [parseItems, h]

theorem parseMembers_step (f : Nat) (s k r1 : List Char)
    (hhead : (skipWs s).head? = some '"')
    (hkey : parseStringRest ((skipWs s).length + 1) (skipWs s).tail = some (k, r1)) :
    parseMembers (f + 1) s =
      (if (skipWs r1).head? = some ':' then
        match parseVal f (skipWs r1).tail with
        | none => none
        | some (v, r2) =>
          if (skipWs r2).head? = some ',' then
            (parseMembers f (skipWs r2).tail).map (fun p => ((k, v) :: p.1, p.2))
          else if (skipWs r2).head? = some '\x7d' then some ([(k, v)], (skipWs r2).tail)
          else none
       else none) := by
  rw [parseMembers, if_pos hhead, hkey]

theorem parseMembers_step2 (f : Nat) (s k r1 : List Char) (v : Json) (r2 : List Char)
    (hhead : (skipWs s).head? = some '"')
    (hkey : parseStringRest ((skipWs s).length + 1) (skipWs s).tail = some (k, r1))
    (hcolon : (skipWs r1).head? = some ':')
    (hval : parseVal f (skipWs r1).tail = some (v, r2)) :
    parseMembers (f + 1) s =
      (if (skipWs r2).head? = some ',' then
        (parseMembers f (skipWs r2).tail).map (fun p => ((k, v) :: p.1, p.2))
       else if (skipWs r2).head? = some '\x7d' then some ([(k, v)], (skipWs r2).tail)
       else none) := by
  rw [parseMembers_step f s k r1 hhead hkey, if_pos hcolon, hval]

set_option maxHeartbeats 1000000 in
theorem parse_dumps_triple : ∀ B : Nat,
    (∀ j ind fuel rest, sizeOf j ≤ B → (dumpsV ind j).length < fuel → delimOk rest →
      parseVal fuel (dumpsV ind j ++ rest) = some (j, rest)) ∧
    (∀ e es ind fuel rest, sizeOf e + sizeOf es ≤ B →
      (dumpsV (ind + 2) e).length + (dumpsItems ind es).length + 1 < fuel →
      delimOk rest →
      parseItems fuel (dumpsV (ind + 2) e ++ (dumpsItems ind es ++
        ('\n' :: (spaces ind ++ (']' :: rest))))) = some (e :: es, rest)) ∧
    (∀ k v ms ind fuel rest, sizeOf v + sizeOf ms ≤ B →
      (dumpsMember (ind + 2) (k, v)).length + (dumpsMembers ind ms).length + 1 < fuel →
      delimOk rest →
      parseMembers fuel (dumpsMember (ind + 2) (k, v) ++ (dumpsMembers ind ms ++
        ('\n' :: (spaces ind ++ ('\x7d' :: rest))))) = some ((k, v) :: ms, rest)) := by
  intro B
  induction B using Nat.strong_induction_on with
  | _ B IH =>
    refine ⟨?_, ?_, ?_⟩
    · -- values
      intro j ind fuel rest hB hf hr
      cases j with
      | null => exact parseVal_null ind fuel rest (by omega)
      | bool b => exact parseVal_bool b ind fuel rest (by omega)
      | num n => exact parseVal_num n ind fuel rest (by omega) hr
      | str s => exact parseVal_str s ind fuel rest (by omega)
      | arr es =>
        cases es with
        | nil => exact parseVal_arr_nil ind fuel rest (by omega)
        | cons e es =>
          obtain ⟨f, rfl⟩ : ∃ f, fuel = f + 1 := ⟨fuel - 1, by omega⟩
          have harr : dumpsV ind (Json.arr (e :: es)) =
              '[' :: '\n' :: (spaces (ind + 2) ++ (dumpsV (ind + 2) e ++
                (dumpsItems ind es ++ ('\n' :: (spaces ind ++ [']']))))) := by
            rw [dumpsV]
          have hszlt : sizeOf e + sizeOf es < B := by
            simp only [Json.arr.sizeOf_spec, List.cons.sizeOf_spec] at hB
            omega
          rw [harr] at hf
          simp only [List.length_cons, List.length_append, spaces_length] at hf
          rw [harr, List.cons_append, List.cons_append]
          have hX : (spaces (ind + 2) ++ (dumpsV (ind + 2) e ++
              (dumpsItems ind es ++ ('\n' :: (spaces ind ++ [']']))))) ++ rest =
              spaces (ind + 2) ++ (dumpsV (ind + 2) e ++ (dumpsItems ind es ++
                ('\n' :: (spaces ind ++ (']' :: rest))))) := by
            simp
          rw [hX]
          rw [show ('[' : Char) :: '\n' :: (spaces (ind + 2) ++ (dumpsV (ind + 2) e ++
              (dumpsItems ind es ++ ('\n' :: (spaces ind ++ (']' :: rest)))))) =
            '[' :: ('\n' :: (spaces (ind + 2) ++ (dumpsV (ind + 2) e ++
              (dumpsItems ind es ++ ('\n' :: (spaces ind ++ (']' :: rest))))))) from rfl]
          rw [parseVal_open_bracket]
          obtain ⟨c0, t0, hc0, hc0w, hc0b, _⟩ := dumpsV_head (ind + 2) e
          rw [if_neg (show ¬((skipWs ('\n' :: (spaces (ind + 2) ++ (dumpsV (ind + 2) e ++
              (dumpsItems ind es ++ ('\n' :: (spaces ind ++ (']' :: rest)))))))).head? =
                some ']') by
            rw [skipWs_cons_ws _ (by decide), skipWs_spaces, hc0, List.cons_append,
                skipWs_cons_not_ws _ hc0w]
            simp [hc0b])]
          rw [show ('\n' : Char) :: (spaces (ind + 2) ++ (dumpsV (ind + 2) e ++
              (dumpsItems ind es ++ ('\n' :: (spaces ind ++ (']' :: rest)))))) =
            ('\n' :: spaces (ind + 2)) ++ (dumpsV (ind + 2) e ++
              (dumpsItems ind es ++ ('\n' :: (spaces ind ++ (']' :: rest))))) by simp]
          rw [parseItems_ws_append _ _ (nl_spaces_all_ws (ind + 2))]
          rw [(IH (sizeOf e + sizeOf es) hszlt).2.1 e es ind f rest le_rfl
            (by omega) hr]
          rfl
      | obj ms =>
        cases ms with
        | nil => exact parseVal_obj_nil ind fuel rest (by omega)
        | cons m ms =>
          obtain ⟨k, v⟩ := m
          obtain ⟨f, rfl⟩ : ∃ f, fuel = f + 1 := ⟨fuel - 1, by omega⟩
          have hobj : dumpsV ind (Json.obj ((k, v) :: ms)) =
              '\x7b' :: '\n' :: (spaces (ind + 2) ++ (dumpsMember (ind + 2) (k, v) ++
                (dumpsMembers ind ms ++ ('\n' :: (spaces ind ++ ['\x7d']))))) := by
            rw [dumpsV]
          have hszlt : sizeOf v + sizeOf ms < B := by
            simp only [Json.obj.sizeOf_spec, List.cons.sizeOf_spec,
              Prod.mk.sizeOf_spec] at hB
            omega
          rw [hobj] at hf
          simp only [List.length_cons, List.length_append, spaces_length] at hf
          rw [hobj, List.cons_append, List.cons_append]
          have hX : (spaces (ind + 2) ++ (dumpsMember (ind + 2) (k, v) ++
              (dumpsMembers ind ms ++ ('\n' :: (spaces ind ++ ['\x7d']))))) ++ rest =
              spaces (ind + 2) ++ (dumpsMember (ind + 2) (k, v) ++ (dumpsMembers ind ms ++
                ('\n' :: (spaces ind ++ ('\x7d' :: rest))))) := by
            simp
          rw [hX]
          rw [show ('\x7b' : Char) :: '\n' :: (spaces (ind + 2) ++
              (dumpsMember (ind + 2) (k, v) ++ (dumpsMembers ind ms ++
                ('\n' :: (spaces ind ++ ('\x7d' :: rest)))))) =
            '\x7b' :: ('\n' :: (spaces (ind + 2) ++ (dumpsMember (ind + 2) (k, v) ++
              (dumpsMembers ind ms ++ ('\n' :: (spaces ind ++ ('\x7d' :: rest)))))))
            from rfl]
          rw [parseVal_open_brace]
          rw [if_neg (show ¬((skipWs ('\n' :: (spaces (ind + 2) ++
              (dumpsMember (ind + 2) (k, v) ++ (dumpsMembers ind ms ++
                ('\n' :: (spaces ind ++ ('\x7d' :: rest)))))))).head? =
                some '\x7d') by
            rw [skipWs_cons_ws _ (by decide), skipWs_spaces, dumpsMember,
                List.cons_append, skipWs_cons_not_ws _ (by decide)]
            simp)]
          rw [show ('\n' : Char) :: (spaces (ind + 2) ++ (dumpsMember (ind + 2) (k, v) ++
              (dumpsMembers ind ms ++ ('\n' :: (spaces ind ++ ('\x7d' :: rest)))))) =
            ('\n' :: spaces (ind + 2)) ++ (dumpsMember (ind + 2) (k, v) ++
              (dumpsMembers ind ms ++ ('\n' :: (spaces ind ++ ('\x7d' :: rest)))))
            by simp]
          rw [parseMembers_ws_append _ _ (nl_spaces_all_ws (ind + 2))]
          rw [(IH (sizeOf v + sizeOf ms) hszlt).2.2 k v ms ind f rest le_rfl
            (by rw [dumpsMember]; rw [dumpsMember] at hf
                simp only [List.length_cons, List.length_append] at hf ⊢
                omega) hr]
          rfl
    · -- array items
      intro e es ind fuel rest hB hf hr
      obtain ⟨f, rfl⟩ : ∃ f, fuel = f + 1 := ⟨fuel - 1, by omega⟩
      have hVe : sizeOf e < B := by
        have := listJson_sizeOf_pos es
        omega
      cases es with
      | nil =>
        rw [show dumpsItems ind ([] : List Json) = [] by rw [dumpsItems]] at hf ⊢
        simp only [List.nil_append, List.length_nil] at hf ⊢
        rw [parseItems_step f _ _ e
          ((IH (sizeOf e) hVe).1 e (ind + 2) f _ le_rfl (by omega)
            (delimOk_cons _ (by decide)))]
        rw [skipWs_cons_ws _ (by decide), skipWs_spaces, skipWs_cons_not_ws _ (by decide)]
        rw [if_neg (show ¬((']' :: rest).head? = some ',') by simp)]
        rw [if_pos (show (']' :: rest).head? = some ']' from rfl)]
        rfl
      | cons e2 es' =>
        rw [show dumpsItems ind (e2 :: es') =
          ',' :: '\n' :: (spaces (ind + 2) ++ (dumpsV (ind + 2) e2 ++ dumpsItems ind es'))
          by rw [dumpsItems]] at hf ⊢
        simp only [List.length_cons, List.length_append, spaces_length] at hf
        have hIH2 : sizeOf e2 + sizeOf es' < B := by
          simp only [List.cons.sizeOf_spec] at hB
          have := json_sizeOf_pos e
          omega
        have hassoc : (',' :: '\n' :: (spaces (ind + 2) ++
            (dumpsV (ind + 2) e2 ++ dumpsItems ind es'))) ++
              ('\n' :: (spaces ind ++ (']' :: rest))) =
            ',' :: '\n' :: (spaces (ind + 2) ++ (dumpsV (ind + 2) e2 ++
              (dumpsItems ind es' ++ ('\n' :: (spaces ind ++ (']' :: rest)))))) := by
          simp
        rw [hassoc]
        rw [parseItems_step f _ _ e
          ((IH (sizeOf e) hVe).1 e (ind + 2) f _ le_rfl (by omega)
            (delimOk_cons _ (by decide)))]
        rw [skipWs_cons_not_ws _ (by decide)]
        rw [if_pos (show ((',' : Char) :: '\n' :: (spaces (ind + 2) ++
            (dumpsV (ind + 2) e2 ++ (dumpsItems ind es' ++
              ('\n' :: (spaces ind ++ (']' :: rest))))))).head? = some ',' from rfl)]
        simp only [List.tail_cons]
        rw [show ('\n' : Char) :: (spaces (ind + 2) ++ (dumpsV (ind + 2) e2 ++
            (dumpsItems ind es' ++ ('\n' :: (spaces ind ++ (']' :: rest)))))) =
          ('\n' :: spaces (ind + 2)) ++ (dumpsV (ind + 2) e2 ++
            (dumpsItems ind es' ++ ('\n' :: (spaces ind ++ (']' :: rest)))))
          by simp]
        rw [parseItems_ws_append _ _ (nl_spaces_all_ws (ind + 2))]
        rw [(IH (sizeOf e2 + sizeOf es') hIH2).2.1 e2 es' ind f rest le_rfl
          (by omega) hr]
        rfl
    · -- object members
      intro k v ms ind fuel rest hB hf hr
      obtain ⟨f, rfl⟩ : ∃ f, fuel = f + 1 := ⟨fuel - 1, by omega⟩
      have hVv : sizeOf v < B := by
        have := listMember_sizeOf_pos ms
        omega
      rw [show dumpsMember (ind + 2) (k, v) ++ (dumpsMembers ind ms ++
          ('\n' :: (spaces ind ++ ('\x7d' :: rest)))) =
        '"' :: (escapeString k ++ ('"' :: (':' :: (' ' :: (dumpsV (ind + 2) v ++
          (dumpsMembers ind ms ++ ('\n' :: (spaces ind ++ ('\x7d' :: rest))))))))) by
        rw [dumpsMember]
        simp]
      rw [dumpsMember] at hf
      simp only [List.length_cons, List.length_append] at hf
      have hdelimM : delimOk (dumpsMembers ind ms ++
          ('\n' :: (spaces ind ++ ('\x7d' :: rest)))) := by
        cases ms with
        | nil =>
          rw [show dumpsMembers ind ([] : List (List Char × Json)) = [] by rw [dumpsMembers]]
          simp only [List.nil_append]
          exact delimOk_cons _ (by decide)
        | cons m2 ms' =>
          rw [show dumpsMembers ind (m2 :: ms') = ',' :: '\n' :: (spaces (ind + 2) ++
            (dumpsMember (ind + 2) m2 ++ dumpsMembers ind ms')) by rw [dumpsMembers]]
          simp only [List.cons_append]
          exact delimOk_cons _ (by decide)
      have hskipNF : skipWs ('"' :: (escapeString k ++ ('"' :: (':' :: (' ' ::
          (dumpsV (ind + 2) v ++ (dumpsMembers ind ms ++
            ('\n' :: (spaces ind ++ ('\x7d' :: rest)))))))))) =
          '"' :: (escapeString k ++ ('"' :: (':' :: (' ' :: (dumpsV (ind + 2) v ++
          (dumpsMembers ind ms ++ ('\n' :: (spaces ind ++ ('\x7d' :: rest))))))))) :=
        skipWs_cons_not_ws _ (by decide)
      rw [parseMembers_step2 f _ k
        (':' :: (' ' :: (dumpsV (ind + 2) v ++ (dumpsMembers ind ms ++
          ('\n' :: (spaces ind ++ ('\x7d' :: rest)))))))
        v
        (dumpsMembers ind ms ++ ('\n' :: (spaces ind ++ ('\x7d' :: rest))))
        (by rw [hskipNF]; rfl)
        (by
          rw [hskipNF]
          simp only [List.tail_cons]
          exact parseStringRest_escapeString k _ _
            (by simp only [List.length_cons, List.length_append]; omega))
        (by rw [skipWs_cons_not_ws _ (by decide)]; rfl)
        (by
          rw [skipWs_cons_not_ws _ (by decide)]
          simp only [List.tail_cons]
          rw [show (' ' : Char) :: (dumpsV (ind + 2) v ++ (dumpsMembers ind ms ++
              ('\n' :: (spaces ind ++ ('\x7d' :: rest))))) =
            [' '] ++ (dumpsV (ind + 2) v ++ (dumpsMembers ind ms ++
              ('\n' :: (spaces ind ++ ('\x7d' :: rest))))) from rfl]
          rw [parseVal_ws_append f _ (by intro c hc; simp at hc; subst hc; rfl)]
          exact (IH (sizeOf v) hVv).1 v (ind + 2) f _ le_rfl (by omega) hdelimM)]
      cases ms with
      | nil =>
        rw [show dumpsMembers ind ([] : List (List Char × Json)) = [] by rw [dumpsMembers]]
        simp only [List.nil_append]
        rw [skipWs_cons_ws _ (by decide), skipWs_spaces, skipWs_cons_not_ws _ (by decide)]
        rw [if_neg (show ¬(('\x7d' :: rest).head? = some ',') by simp)]
        rw [if_pos (show ('\x7d' :: rest).head? = some '\x7d' from rfl)]
        rfl
      | cons m2 ms' =>
        obtain ⟨k2, v2⟩ := m2
        have hIH2 : sizeOf v2 + sizeOf ms' < B := by
          simp only [List.cons.sizeOf_spec, Prod.mk.sizeOf_spec] at hB
          have := json_sizeOf_pos v
          omega
        rw [show dumpsMembers ind ((k2, v2) :: ms') = ',' :: '\n' ::
          (spaces (ind + 2) ++ (dumpsMember (ind + 2) (k2, v2) ++ dumpsMembers ind ms'))
          by rw [dumpsMembers]] at hf ⊢
        simp only [List.length_cons, List.length_append, spaces_length] at hf
        have hassoc : (',' :: '\n' :: (spaces (ind + 2) ++
            (dumpsMember (ind + 2) (k2, v2) ++ dumpsMembers ind ms'))) ++
              ('\n' :: (spaces ind ++ ('\x7d' :: rest))) =
            ',' :: '\n' :: (spaces (ind + 2) ++ (dumpsMember (ind + 2) (k2, v2) ++
              (dumpsMembers ind ms' ++ ('\n' :: (spaces ind ++ ('\x7d' :: rest)))))) := by
          simp
        rw [hassoc]
        rw [skipWs_cons_not_ws _ (by decide)]
        rw [if_pos (show ((',' : Char) :: '\n' :: (spaces (ind + 2) ++
            (dumpsMember (ind + 2) (k2, v2) ++ (dumpsMembers ind ms' ++
              ('\n' :: (spaces ind ++ ('\x7d' :: rest))))))).head? = some ','
          from rfl)]
        simp only [List.tail_cons]
        rw [show ('\n' : Char) :: (spaces (ind + 2) ++ (dumpsMember (ind + 2) (k2, v2) ++
            (dumpsMembers ind ms' ++ ('\n' :: (spaces ind ++ ('\x7d' :: rest)))))) =
          ('\n' :: spaces (ind + 2)) ++ (dumpsMember (ind + 2) (k2, v2) ++
            (dumpsMembers ind ms' ++ ('\n' :: (spaces ind ++ ('\x7d' :: rest)))))
          by simp]
        rw [parseMembers_ws_append _ _ (nl_spaces_all_ws (ind + 2))]
        rw [(IH (sizeOf v2 + sizeOf ms') hIH2).2.2 k2 v2 ms' ind f rest le_rfl
          (by omega) hr]
        rfl

/-- Round trip of the file content written by `json.dump(x, f, indent=2)`
through `json.loads`. -/
theorem json_loads_json_dumps (j : Json) :
    json_loads (json_dumps_indent2 j) = some j := by
  rw [json_loads, json_dumps_indent2]
  have h := (parse_dumps_triple (sizeOf j)).1 j 0 ((dumpsV 0 j).length + 1) []
    le_rfl (by omega) delimOk_nil
  rw [List.append_nil] at h
  rw [h]
  rfl

/-- C9: any QSR value serialized to the output file parses back to exactly
the same value, so in particular the `narrative`, `risk_vector`,
`macro_patterns` and `recommended_action` members are reproduced. -/
theorem c9_qsr_roundtrip (qsr : Json) :
    json_loads (json_dumps_indent2 qsr) = some qsr ∧
    (json_loads (json_dumps_indent2 qsr)).map
      (fun j => j.getKey "narrative".data) = some (qsr.getKey "narrative".data) ∧
    (json_loads (json_dumps_indent2 qsr)).map
      (fun j => j.getKey "risk_vector".data) = some (qsr.getKey "risk_vector".data) ∧
    (json_loads (json_dumps_indent2 qsr)).map
      (fun j => j.getKey "macro_patterns".data) =
        some (qsr.getKey "macro_patterns".data) ∧
    (json_loads (json_dumps_indent2 qsr)).map
      (fun j => j.getKey "recommended_action".data) =
        some (qsr.getKey "recommended_action".data) := by
  have h := json_loads_json_dumps qsr
  refine ⟨h, ?_, ?_, ?_, ?_⟩ <;> rw [h] <;> rfl
